import Mathlib

set_option autoImplicit false
set_option maxRecDepth 8192

/-!
Shallow embedding of the annotation-state and derived-link core of
`chemical_viz_app`: the node/edge data model (`src/data/models.py`), the
ModiFinder link generator (`src/utils/modifinder_link_generator.py`), the
annotation store (`src/utils/annotation_manager.py`) and the annotation
processor (`src/data/annotation_processor.py`).

Python dictionaries become insertion-ordered association lists, objects
mutated in place become explicit state passing, `None`/booleans stay
`Option`/`Bool`, and the ambient `st.session_state` becomes an explicit
`SessionState` value threaded through the processor.  `datetime.now()`
becomes an explicit timestamp argument.
-/

/-- A scalar property value as it occurs on the modelled code paths: the
source stores strings (GraphML fields, adducts, USIs, links, timestamps)
and the boolean flag `visual_annotation_marker`. -/
inductive PropValue where
  | str (s : String)
  | boolean (b : Bool)
deriving DecidableEq

/-- Python `str(v)` on a modelled property value. -/
def pyStr : PropValue → String
  | .str s => s
  | .boolean b => if b then "True" else "False"

/-- Python truthiness of a modelled property value. -/
def pyTruthy : PropValue → Bool
  | .str s => s != ""
  | .boolean b => b

/-- ASCII whitespace as matched by Python's `\s` and stripped by `str.strip()`
(space, tab, newline, carriage return, vertical tab, form feed). -/
def isSpaceChar (c : Char) : Bool :=
  c == ' ' || c == '\t' || c == '\n' || c == '\r' || c == '\x0b' || c == '\x0c'

/-- Python `str.strip()`: remove leading and trailing whitespace. -/
def pyStrip (s : String) : String :=
  String.mk (((s.data.dropWhile isSpaceChar).reverse.dropWhile isSpaceChar).reverse)

/-- Python `str.lower()` (ASCII case folding, which covers the modelled data). -/
def pyLower (s : String) : String :=
  String.mk (s.data.map Char.toLower)

/-- Dictionary lookup `d.get(k)` on an insertion-ordered association list. -/
def lookupKey {α : Type} (ps : List (String × α)) (k : String) : Option α :=
  (ps.find? (fun p => p.1 == k)).map (fun p => p.2)

/-- Dictionary membership `k in d`. -/
def hasKey {α : Type} (ps : List (String × α)) (k : String) : Bool :=
  ps.any (fun p => p.1 == k)

/-- Dictionary write `d[k] = v`: overwrite the first binding of `k` in place,
or append a new binding (Python dicts keep the original position of an
existing key and append fresh keys). -/
def setKey {α : Type} : List (String × α) → String → α → List (String × α)
  | [], k, v => [(k, v)]
  | (k', v') :: rest, k, v =>
    if k' == k then (k', v) :: rest else (k', v') :: setKey rest k v

/-- Dictionary deletion `del d[k]` (removes the first binding of `k`). -/
def delKey {α : Type} : List (String × α) → String → List (String × α)
  | [], _ => []
  | (k', v') :: rest, k =>
    if k' == k then rest else (k', v') :: delKey rest k

/-- The Python idiom `v and str(v).strip()` used as a boolean (via `all`/`if`):
the value is present, truthy, and its string form is non-blank. -/
def truthyStrip (v : Option PropValue) : Bool :=
  match v with
  | none => false
  | some x => pyTruthy x && pyStrip (pyStr x) != ""

/-! ## Data model (`src/data/models.py`) -/

/-- `NodeType` enum. -/
inductive NodeType where
  | molecule | protein | reaction | pathway | other
deriving DecidableEq

/-- `EdgeType` enum. -/
inductive EdgeType where
  | interaction | activation | inhibition | binding | other
deriving DecidableEq

/-- `ChemicalNode`.  The presentation-only fields `x`, `y`, `size` are never
read or written by the modelled operations and are omitted; `color` is kept
because `_mark_annotated_nodes` writes it. -/
structure ChemicalNode where
  id : String
  label : String
  node_type : NodeType
  properties : List (String × PropValue)
  color : Option String := none
deriving DecidableEq

/-- `ChemicalEdge`.  The presentation-only fields `weight`, `color`, `width`
are never read or written by the modelled operations and are omitted. -/
structure ChemicalEdge where
  source : String
  target : String
  edge_type : EdgeType
  properties : List (String × PropValue)
deriving DecidableEq

/-- `ChemicalNetwork`.  The `metadata` mapping is never touched by the
modelled operations and is omitted. -/
structure ChemicalNetwork where
  nodes : List ChemicalNode
  edges : List ChemicalEdge
deriving DecidableEq

/-- `ChemicalNode.is_annotated`. -/
def ChemicalNode.is_annotated (n : ChemicalNode) : Bool :=
  lookupKey n.properties "annotation_status" == some (.str "user_annotated")

/-- `ChemicalNode.get_effective_smiles`: `self.properties.get('library_SMILES')`. -/
def ChemicalNode.get_effective_smiles (n : ChemicalNode) : Option PropValue :=
  lookupKey n.properties "library_SMILES"

/-- `ChemicalNode.has_smiles`: `smiles is not None and str(smiles).strip() != ''`. -/
def ChemicalNode.has_smiles (n : ChemicalNode) : Bool :=
  match n.get_effective_smiles with
  | none => false
  | some v => pyStrip (pyStr v) != ""

/-- `ChemicalNode.set_annotation_status` (the `metadata` argument is never
supplied by the modelled call sites and is omitted).  The timestamp is only
written when truthy (`if timestamp:`). -/
def ChemicalNode.set_annotation_status (n : ChemicalNode) (status : String)
    (timestamp : Option String) : ChemicalNode :=
  let n := { n with properties := setKey n.properties "annotation_status" (.str status) }
  match timestamp with
  | some t => if t != "" then
      { n with properties := setKey n.properties "annotation_timestamp" (.str t) }
    else n
  | none => n

/-- `ChemicalNetwork.get_node_by_id`: first node with the given id. -/
def ChemicalNetwork.get_node_by_id (net : ChemicalNetwork) (node_id : String) :
    Option ChemicalNode :=
  net.nodes.find? (fun n => n.id == node_id)

/-- `ChemicalNetwork.get_edges_for_node`: all edges incident to the node,
in insertion order. -/
def ChemicalNetwork.get_edges_for_node (net : ChemicalNetwork) (node_id : String) :
    List ChemicalEdge :=
  net.edges.filter (fun e => e.source == node_id || e.target == node_id)

/-- Replace the first node with the given id by its image under `f`
(Python mutates the object returned by `get_node_by_id` in place). -/
def updateFirstNode : List ChemicalNode → String → (ChemicalNode → ChemicalNode) →
    List ChemicalNode
  | [], _, _ => []
  | n :: rest, nid, f =>
    if n.id == nid then f n :: rest else n :: updateFirstNode rest nid f

/-- The in-place mutation performed by `apply_annotation_to_node` on the node
it found: set `library_SMILES`, then `set_annotation_status('user_annotated',
timestamp)`. -/
def annotateNodeObj (n : ChemicalNode) (smiles : String) (timestamp : Option String) :
    ChemicalNode :=
  ChemicalNode.set_annotation_status
    { n with properties := setKey n.properties "library_SMILES" (.str smiles) }
    "user_annotated" timestamp

/-- `ChemicalNetwork.apply_annotation_to_node`: look the node up; if absent
return `false` leaving the network untouched, else mutate that node and
return `true`. -/
def ChemicalNetwork.apply_annotation_to_node (net : ChemicalNetwork)
    (node_id : String) (smiles : String) (timestamp : Option String) :
    ChemicalNetwork × Bool :=
  match net.get_node_by_id node_id with
  | some _ =>
    let f := fun n => annotateNodeObj n smiles timestamp
    ({ net with nodes := updateFirstNode net.nodes node_id f }, true)
  | none => (net, false)

/-! ## Link generator (`src/utils/modifinder_link_generator.py`) -/

/-- `ModiFinderLinkGenerator.GNPS_TASK`. -/
def GNPS_TASK : String := "43ab1bb3ce8d468a8dce177763c0ffb1"

/-- `ModiFinderLinkGenerator.BASE_URL`. -/
def BASE_URL : String := "https://modifinder.gnps2.org/"

/-- `ModiFinderLinkGenerator.generate_usi`. -/
def generate_usi (node_usi_field : String) : String :=
  "mzspec:GNPS2:TASK-" ++ GNPS_TASK ++ "-input_spectra/" ++ node_usi_field

/-- Recursion kernel of `re.sub(r'\s+|adduct', '', ·)`: left-to-right scan
deleting whitespace and occurrences of the literal `adduct` (the input is
already lower-cased).  Deleting a whitespace run one character at a time
gives the same result as the greedy `\s+` because the replacement is empty.
The extra fuel argument (always instantiated with the list length, which the
scan never exhausts — each step consumes at least one character) keeps the
recursion structural so that it reduces inside the kernel. -/
def removeWsAdductAux : Nat → List Char → List Char
  | 0, _ => []
  | _, [] => []
  | fuel + 1, c :: rest =>
    if isSpaceChar c then removeWsAdductAux fuel rest
    else if (c :: rest).take 6 = ['a', 'd', 'd', 'u', 'c', 't'] then
      removeWsAdductAux fuel ((c :: rest).drop 6)
    else c :: removeWsAdductAux fuel rest

/-- `re.sub(r'\s+|adduct', '', ·)`. -/
def removeWsAdduct (l : List Char) : List Char :=
  removeWsAdductAux l.length l

/-- `re.sub(r'\+(?!.*\+)', '1+', ·)`: replace the `+` that is not followed by
any later `+` (i.e. the last one) by `1+`. -/
def insertBeforeLastPlus : List Char → List Char
  | [] => []
  | c :: rest =>
    if c == '+' && !rest.contains '+' then '1' :: '+' :: rest
    else c :: insertBeforeLastPlus rest

/-- `ModiFinderLinkGenerator.normalize_adduct`.  The guard
`if not adduct or not isinstance(adduct, str): return ""` degenerates to the
empty-string test because the argument is always `str(raw)`. -/
def normalize_adduct (adduct : String) : String :=
  if adduct == "" then ""
  else String.mk (insertBeforeLastPlus (removeWsAdduct (pyLower adduct).data))

/-- Python `s.replace('\n', '')` for the single-character pattern: removes
every newline character (modelled directly so it reduces in the kernel). -/
def removeNewlines (s : String) : String :=
  String.mk (s.data.filter (fun c => c != '\n'))

/-- The adduct value the generator resolves: the edge's `adduct_1` when an
edge is supplied and carries the key, else `node1`'s `adduct_1` (this
`if edge and 'adduct_1' in edge.properties` dispatch appears verbatim in both
`can_generate_link` and `generate_modifinder_link`). -/
def resolvedAdduct (node1 : ChemicalNode) (edge : Option ChemicalEdge) :
    Option PropValue :=
  match edge with
  | some e =>
    if hasKey e.properties "adduct_1" then lookupKey e.properties "adduct_1"
    else lookupKey node1.properties "adduct_1"
  | none => lookupKey node1.properties "adduct_1"

/-- `ModiFinderLinkGenerator.can_generate_link`:
`all([usi1 and strip, usi2 and strip, adduct and strip, smiles and strip])`. -/
def can_generate_link (node1 node2 : ChemicalNode) (smiles : String)
    (edge : Option ChemicalEdge) : Bool :=
  truthyStrip (lookupKey node1.properties "usi") &&
  truthyStrip (lookupKey node2.properties "usi") &&
  truthyStrip (resolvedAdduct node1 edge) &&
  (smiles != "" && pyStrip smiles != "")

/-- `ModiFinderLinkGenerator.generate_modifinder_link`.  The Python float
default `filter_peaks_variable=0.01` interpolates into the URL as the string
`"0.01"` and is modelled as that string; `ppm_tolerance=40` interpolates via
decimal `toString`.  A `KeyError` inside the `try` block would surface as
`none` (the broad `except` returns `None`); in the model the corresponding
lookups are matched explicitly. -/
def generate_modifinder_link (node1 node2 : ChemicalNode) (smiles : String)
    (edge : Option ChemicalEdge) (ppm_tolerance : Nat := 40)
    (filter_peaks_variable : String := "0.01") : Option String :=
  if !can_generate_link node1 node2 smiles edge then none
  else
    match lookupKey node1.properties "usi", lookupKey node2.properties "usi",
        resolvedAdduct node1 edge with
    | some u1, some u2, some raw_adduct =>
      let usi1 := generate_usi (pyStr u1)
      let usi2 := generate_usi (pyStr u2)
      let adduct := normalize_adduct (pyStr raw_adduct)
      let clean_smiles := pyStrip (removeNewlines smiles)
      some (BASE_URL ++ "?" ++
        "USI1=" ++ usi1 ++ "&" ++
        "USI2=" ++ usi2 ++ "&" ++
        "Helpers=&" ++
        "Adduct=" ++ adduct ++ "&" ++
        "ppm_tolerance=" ++ toString ppm_tolerance ++ "&" ++
        "filter_peaks_variable=" ++ filter_peaks_variable ++ "&" ++
        "SMILES1=" ++ clean_smiles)
    | _, _, _ => none

/-! ## Annotation store (`src/utils/annotation_manager.py`) -/

/-- An annotation record as built by `AnnotationManager.create_annotation`
(`status` is one of `'pending'`, `'applied'`, `'error'`; the `error` key is
only added by `update_annotation_status`). -/
structure AnnotationRecord where
  node_id : String
  original_smiles : Option String
  new_smiles : String
  timestamp : String
  status : String
  metadata : List (String × PropValue) := []
  error : Option String := none
deriving DecidableEq

/-- `AnnotationManager.get_annotation`:
`st.session_state.node_annotations.get(node_id)`. -/
def get_annotation (node_annotations : List (String × AnnotationRecord))
    (node_id : String) : Option AnnotationRecord :=
  lookupKey node_annotations node_id

/-- `AnnotationManager.get_effective_smiles`.  The guard `if annotation and`
tests dict truthiness; records are never empty dicts, so it reduces to
presence.  The record's `new_smiles` is a string, the fallback is the node's
raw property value. -/
def AnnotationManager.get_effective_smiles
    (node_annotations : List (String × AnnotationRecord)) (node : ChemicalNode) :
    Option PropValue :=
  match get_annotation node_annotations node.id with
  | some ann =>
    if ann.status == "applied" then some (.str ann.new_smiles)
    else lookupKey node.properties "library_SMILES"
  | none => lookupKey node.properties "library_SMILES"

/-- Replace the value bound to the first occurrence of a key. -/
def updateValue {α : Type} : List (String × α) → String → (α → α) →
    List (String × α)
  | [], _, _ => []
  | (k', v') :: rest, k, f =>
    if k' == k then (k', f v') :: rest else (k', v') :: updateValue rest k f

/-- `AnnotationManager.update_annotation_status`: no-op when no record exists;
otherwise set `status`, and set `error` only when `error_msg` is truthy. -/
def update_annotation_status (node_annotations : List (String × AnnotationRecord))
    (node_id status : String) (error_msg : Option String) :
    List (String × AnnotationRecord) :=
  if hasKey node_annotations node_id then
    updateValue node_annotations node_id (fun r =>
      let r := { r with status := status }
      match error_msg with
      | some e => if e != "" then { r with error := some e } else r
      | none => r)
  else node_annotations

/-! ## Session state and processor (`src/data/annotation_processor.py`) -/

/-- A pending structure edit as stored in
`st.session_state.pending_smiles_updates` (built in
`components._handle_smiles_update`). -/
structure PendingUpdate where
  new_smiles : String
  timestamp : String
  status : String := "pending"
deriving DecidableEq

/-- The `st.session_state` fields touched by the modelled operations.
`pending_smiles_updates = none` models the session key being absent;
`current_project` abstracts whether a project context is active (consumed by
the spec-modelled `save_current_project`). -/
structure SessionState where
  pending_smiles_updates : Option (List (String × PendingUpdate)) := none
  node_annotations : List (String × AnnotationRecord) := []
  current_project : Option String := none
deriving DecidableEq

/-- The `results` dict of `_generate_modifinder_links_for_node`. -/
structure LinkGenResults where
  count : Nat := 0
  edge_ids : List String := []
  errors : List String := []
  skipped_no_usi : Nat := 0
  skipped_no_adduct : Nat := 0
  total_edges_checked : Nat := 0
deriving DecidableEq

/-- The `details` dict of `_process_single_annotation`. -/
structure AnnDetails where
  links_created : Nat := 0
  edges_updated : List String := []
  error : Option String := none
deriving DecidableEq

/-- The `results` dict of `process_pending_annotations`.  The early-exit path
builds a dict holding only `processed` and `errors`; `Option` fields model
the presence of the remaining keys. -/
structure ProcessResults where
  processed : Nat
  errors : List String
  modifinder_links_created : Option Nat := none
  nodes_updated : Option (List String) := none
  edges_updated : Option (List String) := none
deriving DecidableEq

/-- The `results` dict of
`generate_modifinder_links_for_existing_annotations`. -/
structure BulkResults where
  links_created : Nat := 0
  total_annotated_nodes : Nat := 0
  errors : List String := []
  nodes_processed : List String := []
deriving DecidableEq

/-- Loop body of `_generate_modifinder_links_for_node` for one incident edge
(the per-edge `try` body; nothing in the modelled body can throw, so the
per-edge `except` that appends to `errors` is unreachable).  `nodes` is the
network's node list (`network.get_node_by_id` only reads nodes); `ts` is
`datetime.now().isoformat()`. -/
def processIncidentEdge (nodes : List ChemicalNode) (annotated_node : ChemicalNode)
    (new_smiles ts : String) (edge : ChemicalEdge) (results : LinkGenResults) :
    ChemicalEdge × LinkGenResults :=
  let results := { results with total_edges_checked := results.total_edges_checked + 1 }
  let secondary_id := if edge.source == annotated_node.id then edge.target else edge.source
  match nodes.find? (fun n => n.id == secondary_id) with
  | none => (edge, results)
  | some secondary_node =>
    let secondary_usi := lookupKey secondary_node.properties "usi"
    let edge_adduct := lookupKey edge.properties "adduct_1"
    let node_adduct := lookupKey annotated_node.properties "adduct_1"
    let results :=
      if !truthyStrip secondary_usi then
        { results with skipped_no_usi := results.skipped_no_usi + 1 }
      else if !(truthyStrip edge_adduct || truthyStrip node_adduct) then
        { results with skipped_no_adduct := results.skipped_no_adduct + 1 }
      else results
    match generate_modifinder_link annotated_node secondary_node new_smiles (some edge) with
    | some link =>
      let props := setKey edge.properties "modifinder_link" (.str link)
      let props := setKey props "modifinder_generated" (.str ts)
      let props := setKey props "modifinder_source_node" (.str annotated_node.id)
      ({ edge with properties := props },
       { results with count := results.count + 1,
                      edge_ids := results.edge_ids ++ [edge.source ++ "-" ++ edge.target] })
    | none => (edge, results)

/-- One iteration of the edge loop of `_generate_modifinder_links_for_node`:
incident edges are processed (and rebuilt), all others kept as they are. -/
def genStep (nodes : List ChemicalNode) (annotated_node : ChemicalNode)
    (new_smiles ts : String) (acc : List ChemicalEdge × LinkGenResults)
    (e : ChemicalEdge) : List ChemicalEdge × LinkGenResults :=
  if e.source == annotated_node.id || e.target == annotated_node.id then
    let er := processIncidentEdge nodes annotated_node new_smiles ts e acc.2
    (acc.1 ++ [er.1], er.2)
  else (acc.1 ++ [e], acc.2)

/-- `AnnotationProcessor._generate_modifinder_links_for_node`.  The source
iterates `network.get_edges_for_node(annotated_node.id)` and mutates those
edge objects in place; the model rebuilds the full edge list in order,
processing each incident edge and keeping the rest. -/
def _generate_modifinder_links_for_node (net : ChemicalNetwork)
    (annotated_node : ChemicalNode) (new_smiles ts : String) :
    ChemicalNetwork × LinkGenResults :=
  let folded := net.edges.foldl (genStep net.nodes annotated_node new_smiles ts)
    (([], {}) : List ChemicalEdge × LinkGenResults)
  ({ net with edges := folded.1 }, folded.2)

/-- `AnnotationProcessor._process_single_annotation`.  `annotated_node` is
fetched before the structure write and in Python is mutated in place by it,
so the link-generation step sees the updated object; the model rebuilds that
object with `annotateNodeObj`. -/
def _process_single_annotation (net : ChemicalNetwork)
    (node_annotations : List (String × AnnotationRecord))
    (node_id new_smiles ts : String) :
    ChemicalNetwork × List (String × AnnotationRecord) × Bool × AnnDetails :=
  match net.get_node_by_id node_id with
  | none =>
    (net, node_annotations, false,
     { error := some ("Node " ++ node_id ++ " not found in network") })
  | some annotated_node0 =>
    let applied := net.apply_annotation_to_node node_id new_smiles (some ts)
    if !applied.2 then
      (applied.1, node_annotations, false,
       { error := some "Failed to apply annotation to node" })
    else
      let anns := update_annotation_status node_annotations node_id "applied" none
      let annotated_node := annotateNodeObj annotated_node0 new_smiles (some ts)
      let gen := _generate_modifinder_links_for_node applied.1 annotated_node new_smiles ts
      (gen.1, anns, true,
       { links_created := gen.2.count, edges_updated := gen.2.edge_ids })

/-- Loop body of `process_pending_annotations` for one pending entry (the
per-annotation `try` body; nothing in the modelled body can throw). -/
def processPendingStep (ts : String)
    (acc : ChemicalNetwork × SessionState × ProcessResults)
    (entry : String × PendingUpdate) :
    ChemicalNetwork × SessionState × ProcessResults :=
  let net := acc.1
  let sess := acc.2.1
  let results := acc.2.2
  let r := _process_single_annotation net sess.node_annotations entry.1 entry.2.new_smiles ts
  let net' := r.1
  let anns' := r.2.1
  let success := r.2.2.1
  let details := r.2.2.2
  if success then
    let results := { results with
      processed := results.processed + 1,
      nodes_updated := some ((results.nodes_updated.getD []) ++ [entry.1]),
      modifinder_links_created :=
        some ((results.modifinder_links_created.getD 0) + details.links_created),
      edges_updated := some ((results.edges_updated.getD []) ++ details.edges_updated) }
    let sess := { sess with
      node_annotations := anns',
      pending_smiles_updates := sess.pending_smiles_updates.map (fun l => delKey l entry.1) }
    (net', sess, results)
  else
    (net', { sess with node_annotations := anns' },
     { results with errors := results.errors ++
        ["Node " ++ entry.1 ++ ": " ++ (details.error.getD "Unknown error")] })

/-- `AnnotationProcessor.process_pending_annotations`.  When the session has
no `pending_smiles_updates` key at all, returns the network unchanged with
the two-key summary.  Otherwise iterates a snapshot (`.copy()`) of the
pending dict, deleting successfully applied entries from the live session
dict; the mutated session is returned explicitly. -/
def process_pending_annotations (sess : SessionState) (net : ChemicalNetwork)
    (ts : String) : ChemicalNetwork × SessionState × ProcessResults :=
  match sess.pending_smiles_updates with
  | none => (net, sess, { processed := 0, errors := [] })
  | some pending =>
    pending.foldl (processPendingStep ts)
      (net, sess,
       { processed := 0, errors := [], modifinder_links_created := some 0,
         nodes_updated := some [], edges_updated := some [] })

/-- The in-place mutation `_mark_annotated_nodes` performs on one node. -/
def markNodeObj (n : ChemicalNode) : ChemicalNode :=
  if n.is_annotated then
    { n with color := some "#2196F3",
             properties := setKey n.properties "visual_annotation_marker" (.boolean true) }
  else n

/-- `AnnotationProcessor._mark_annotated_nodes`. -/
def _mark_annotated_nodes (net : ChemicalNetwork) : ChemicalNetwork :=
  { net with nodes := net.nodes.map markNodeObj }

/-- Modelled from the spec: `AnnotationManager.save_current_project` is called
by the processor but is missing from the sources (only its call sites exist).
Per spec §4.2 and §4.4 it persists the annotation store to the current
project, degrading to a boolean: it fails when no project context is active
and otherwise succeeds exactly when the file write does; exceptions are
caught and logged, never raised.  The file-system outcome is an oracle
parameter, and the in-memory stores are untouched either way. -/
def save_current_project (sess : SessionState) (file_write_ok : Bool) : Bool :=
  match sess.current_project with
  | none => false
  | some _ => file_write_ok

/-- Which persistence path `apply_all_pending_updates` took. -/
inductive SavePath where
  | project
  | legacyFallback
deriving DecidableEq

/-- `AnnotationProcessor.apply_all_pending_updates`: process pending
annotations, mark annotated nodes, save to the current project and fall back
to the legacy unscoped save (`save_annotations_to_file`, whose boolean result
is discarded) when that fails, then return the results.  The chosen
persistence path is returned for observability; neither save touches the
in-memory state. -/
def apply_all_pending_updates (sess : SessionState) (net : ChemicalNetwork)
    (ts : String) (file_write_ok : Bool) :
    ChemicalNetwork × SessionState × ProcessResults × SavePath :=
  let r := process_pending_annotations sess net ts
  let net2 := _mark_annotated_nodes r.1
  let path := if save_current_project r.2.1 file_write_ok then SavePath.project
              else SavePath.legacyFallback
  (net2, r.2.1, r.2.2, path)

/-- Loop body of `generate_modifinder_links_for_existing_annotations` for one
node with SMILES data (the per-node `try` body; nothing in the modelled body
can throw). -/
def bulkStep (ts : String) (acc : ChemicalNetwork × BulkResults)
    (node : ChemicalNode) : ChemicalNetwork × BulkResults :=
  match node.get_effective_smiles with
  | none => acc
  | some v =>
    if !pyTruthy v then acc
    else
      let gen := _generate_modifinder_links_for_node acc.1 node (pyStr v) ts
      (gen.1,
       { acc.2 with links_created := acc.2.links_created + gen.2.count,
                    nodes_processed := acc.2.nodes_processed ++ [node.id],
                    errors := acc.2.errors ++ gen.2.errors })

/-- `AnnotationProcessor.generate_modifinder_links_for_existing_annotations`:
collect every node with SMILES data (counting them), then run the per-node
edge-link routine for each, accumulating totals. -/
def generate_modifinder_links_for_existing_annotations (net : ChemicalNetwork)
    (ts : String) : ChemicalNetwork × BulkResults :=
  let annotated_nodes := net.nodes.filter (fun n => n.has_smiles)
  annotated_nodes.foldl (bulkStep ts)
    (net, { total_annotated_nodes := annotated_nodes.length })

/-! ## Association-list laws -/

theorem lookupKey_cons {α : Type} (k' : String) (v' : α) (rest : List (String × α))
    (k : String) :
    lookupKey ((k', v') :: rest) k = if k' == k then some v' else lookupKey rest k := by
  by_cases h : k' == k <;> simp [lookupKey, List.find?_cons, h]

theorem lookupKey_setKey_self {α : Type} (ps : List (String × α)) (k : String) (v : α) :
    lookupKey (setKey ps k v) k = some v := by
  induction ps with
  | nil => simp [setKey, lookupKey]
  | cons p rest ih =>
    obtain ⟨k', v'⟩ := p
    by_cases h : (k' == k) = true
    · simp [setKey, h, lookupKey_cons]
    · simp [setKey, h, lookupKey_cons, ih]

theorem lookupKey_setKey_other {α : Type} (ps : List (String × α)) (k k2 : String)
    (v : α) (h : k2 ≠ k) : lookupKey (setKey ps k v) k2 = lookupKey ps k2 := by
  induction ps with
  | nil =>
    have hne : (k == k2) = false := beq_eq_false_iff_ne.mpr (fun e => h e.symm)
    simp [setKey, lookupKey_cons, hne, lookupKey]
  | cons p rest ih =>
    obtain ⟨k', v'⟩ := p
    by_cases hk : (k' == k) = true
    · have hk' : k' = k := by simpa using hk
      have hk2 : (k' == k2) = false := by
        rw [hk']
        exact beq_eq_false_iff_ne.mpr (fun e => h e.symm)
      simp [setKey, hk, lookupKey_cons, hk2]
    · by_cases hk2 : (k' == k2) = true
      · simp [setKey, hk, lookupKey_cons, hk2]
      · simp [setKey, hk, lookupKey_cons, hk2, ih]

theorem hasKey_eq_isSome {α : Type} (ps : List (String × α)) (k : String) :
    hasKey ps k = (lookupKey ps k).isSome := by
  induction ps with
  | nil => rfl
  | cons p rest ih =>
    obtain ⟨k', v'⟩ := p
    by_cases h : (k' == k) = true
    · simp [hasKey, lookupKey_cons, h, List.any_cons]
    · simp [hasKey, lookupKey_cons, h, List.any_cons]
      simpa [hasKey] using ih

theorem lookupKey_updateValue_self {α : Type} (ps : List (String × α)) (k : String)
    (f : α → α) : lookupKey (updateValue ps k f) k = (lookupKey ps k).map f := by
  induction ps with
  | nil => rfl
  | cons p rest ih =>
    obtain ⟨k', v'⟩ := p
    by_cases h : (k' == k) = true
    · simp [updateValue, h, lookupKey_cons]
    · simp [updateValue, h, lookupKey_cons, ih]

theorem lookupKey_updateValue_other {α : Type} (ps : List (String × α)) (k k2 : String)
    (f : α → α) (h : k2 ≠ k) :
    lookupKey (updateValue ps k f) k2 = lookupKey ps k2 := by
  induction ps with
  | nil => rfl
  | cons p rest ih =>
    obtain ⟨k', v'⟩ := p
    by_cases hk : (k' == k) = true
    · have hk' : k' = k := by simpa using hk
      have hk2 : (k' == k2) = false := by
        rw [hk']
        exact beq_eq_false_iff_ne.mpr (fun e => h e.symm)
      simp [updateValue, hk, lookupKey_cons, hk2]
    · by_cases hk2 : (k' == k2) = true
      · simp [updateValue, hk, lookupKey_cons, hk2]
      · simp [updateValue, hk, lookupKey_cons, hk2, ih]

theorem lookup_update_status_self (anns : List (String × AnnotationRecord))
    (nid s : String) :
    lookupKey (update_annotation_status anns nid s none) nid =
      (lookupKey anns nid).map (fun r => { r with status := s }) := by
  unfold update_annotation_status
  by_cases h : hasKey anns nid = true
  · simp [h, lookupKey_updateValue_self]
  · have h0 : lookupKey anns nid = none := by
      rw [hasKey_eq_isSome] at h
      cases hl : lookupKey anns nid with
      | none => rfl
      | some v => rw [hl] at h; simp at h
    simp [h, h0]

theorem lookup_update_status_other (anns : List (String × AnnotationRecord))
    (nid nid2 s : String) (em : Option String) (h : nid2 ≠ nid) :
    lookupKey (update_annotation_status anns nid s em) nid2 = lookupKey anns nid2 := by
  unfold update_annotation_status
  by_cases hk : hasKey anns nid = true <;> simp [hk, lookupKey_updateValue_other _ _ _ _ h]

theorem pyStrip_empty : pyStrip "" = "" := rfl

theorem ne_empty_of_pyStrip_ne_empty (s : String) (h : pyStrip s ≠ "") : s ≠ "" := by
  intro e
  rw [e] at h
  exact h pyStrip_empty

/-! ## C1: eligibility truth table -/

/-- Claim-side reading of "present and non-blank" for a property value. -/
def presentNonBlank (v : Option PropValue) : Prop :=
  ∃ s : String, v = some (.str s) ∧ pyStrip s ≠ ""

/-- The property value, when present, is a string (the shape of the synthetic
node/edge fixtures the truth-table test constructs, and of GraphML data). -/
def isStrOpt (v : Option PropValue) : Prop :=
  ∀ x, v = some x → ∃ s, x = PropValue.str s

theorem isStrOpt_of_eq (v : Option PropValue) (s : String)
    (h : v = some (.str s)) : isStrOpt v := by
  intro x hx
  rw [h] at hx
  exact ⟨s, (Option.some.inj hx).symm⟩

theorem truthyStrip_eq_presentNonBlank (v : Option PropValue) (h : isStrOpt v) :
    truthyStrip v = true ↔ presentNonBlank v := by
  cases v with
  | none => simp [truthyStrip, presentNonBlank]
  | some x =>
    obtain ⟨s, rfl⟩ := h x rfl
    simp only [truthyStrip, pyTruthy, pyStr, Bool.and_eq_true, bne_iff_ne, ne_eq,
      presentNonBlank]
    constructor
    · rintro ⟨-, h2⟩
      exact ⟨s, rfl, h2⟩
    · rintro ⟨s', hs', hne⟩
      obtain rfl : s = s' := by simpa using hs'
      exact ⟨ne_empty_of_pyStrip_ne_empty s hne, hne⟩

theorem smiles_nonblank_iff (s : String) :
    (s != "" && pyStrip s != "") = true ↔ pyStrip s ≠ "" := by
  simp only [Bool.and_eq_true, bne_iff_ne, ne_eq]
  constructor
  · rintro ⟨-, h2⟩; exact h2
  · intro h; exact ⟨ne_empty_of_pyStrip_ne_empty s h, h⟩

/-- C1: `can_generate_link(a, b, s, e)` returns true iff all four §4.3
preconditions hold — both analytical ids present and non-blank, the resolved
adduct (edge's `adduct_1` preferred, else the primary node's) present and
non-blank, and the structure non-blank.  Quantifying over all string-valued
fixtures settles every one of the 2^4 precondition combinations. -/
theorem c1_eligibility_truth_table (node1 node2 : ChemicalNode) (smiles : String)
    (edge : Option ChemicalEdge)
    (h1 : isStrOpt (lookupKey node1.properties "usi"))
    (h2 : isStrOpt (lookupKey node2.properties "usi"))
    (h3 : isStrOpt (resolvedAdduct node1 edge)) :
    can_generate_link node1 node2 smiles edge = true ↔
      (presentNonBlank (lookupKey node1.properties "usi") ∧
       presentNonBlank (lookupKey node2.properties "usi") ∧
       presentNonBlank (resolvedAdduct node1 edge) ∧
       pyStrip smiles ≠ "") := by
  simp only [can_generate_link, Bool.and_eq_true, bne_iff_ne, ne_eq]
  rw [truthyStrip_eq_presentNonBlank _ h1, truthyStrip_eq_presentNonBlank _ h2,
    truthyStrip_eq_presentNonBlank _ h3]
  constructor
  · rintro ⟨⟨⟨ha, hb⟩, hc⟩, -, hd⟩
    exact ⟨ha, hb, hc, hd⟩
  · rintro ⟨ha, hb, hc, hd⟩
    exact ⟨⟨⟨ha, hb⟩, hc⟩, ne_empty_of_pyStrip_ne_empty smiles hd, hd⟩

def c1nodeA : ChemicalNode :=
  { id := "a", label := "a", node_type := .molecule,
    properties := [("usi", .str "ua"), ("adduct_1", .str "[M+H]+")] }

def c1nodeB : ChemicalNode :=
  { id := "b", label := "b", node_type := .molecule,
    properties := [("usi", .str "ub")] }

/-- Witness for C1 at a fixture where all four preconditions hold. -/
theorem c1_eligibility_truth_table_witness :
    can_generate_link c1nodeA c1nodeB "CCO" none = true :=
  (c1_eligibility_truth_table c1nodeA c1nodeB "CCO" none
      (isStrOpt_of_eq _ "ua" rfl) (isStrOpt_of_eq _ "ub" rfl)
      (isStrOpt_of_eq _ "[M+H]+" rfl)).mpr
    ⟨⟨"ua", rfl, by decide⟩, ⟨"ub", rfl, by decide⟩, ⟨"[M+H]+", rfl, by decide⟩,
      by decide⟩

/-! ## C3: adduct normalization -/

theorem removeWsAdductAux_no_space (fuel : Nat) (l : List Char) :
    ∀ c ∈ removeWsAdductAux fuel l, isSpaceChar c = false := by
  induction fuel, l using removeWsAdductAux.induct with
  | case1 x => simp [removeWsAdductAux]
  | case2 t ht =>
    intro c hc
    cases t with
    | zero => simp [removeWsAdductAux] at hc
    | succ n => simp [removeWsAdductAux] at hc
  | case3 fuel c rest hsp ih =>
    rw [removeWsAdductAux, if_pos hsp]
    exact ih
  | case4 fuel c rest hsp htk ih =>
    rw [removeWsAdductAux, if_neg hsp, if_pos htk]
    exact ih
  | case5 fuel c rest hsp htk ih =>
    rw [removeWsAdductAux, if_neg hsp, if_neg htk]
    intro x hx
    rcases List.mem_cons.mp hx with rfl | hx
    · simpa using hsp
    · exact ih x hx

theorem removeWsAdduct_no_space (l : List Char) :
    ∀ c ∈ removeWsAdduct l, isSpaceChar c = false :=
  removeWsAdductAux_no_space l.length l

theorem insertBeforeLastPlus_mem (l : List Char) :
    ∀ c ∈ insertBeforeLastPlus l, c = '1' ∨ c ∈ l := by
  induction l with
  | nil => simp [insertBeforeLastPlus]
  | cons a rest ih =>
    intro c hc
    rw [insertBeforeLastPlus] at hc
    by_cases h : (a == '+' && !rest.contains '+') = true
    · rw [if_pos h] at hc
      have ha : a = '+' := by
        have := (Bool.and_eq_true _ _).mp h
        simpa using this.1
      rcases List.mem_cons.mp hc with rfl | hc
      · exact Or.inl rfl
      · rcases List.mem_cons.mp hc with rfl | hc
        · exact Or.inr (ha ▸ List.mem_cons_self _ _)
        · exact Or.inr (List.mem_cons_of_mem _ hc)
    · rw [if_neg h] at hc
      rcases List.mem_cons.mp hc with rfl | hc
      · exact Or.inr (List.mem_cons_self _ _)
      · rcases ih c hc with h1 | h1
        · exact Or.inl h1
        · exact Or.inr (List.mem_cons_of_mem _ h1)

theorem insertBeforeLastPlus_of_not_mem (l : List Char) (h : '+' ∉ l) :
    insertBeforeLastPlus l = l := by
  induction l with
  | nil => rfl
  | cons a rest ih =>
    have ha : (a == '+') = false := by
      refine beq_eq_false_iff_ne.mpr (fun e => h ?_)
      rw [e]
      exact List.mem_cons_self _ _
    rw [insertBeforeLastPlus, ha]
    simp only [Bool.false_and]
    rw [if_neg Bool.false_ne_true, ih (fun hm => h (List.mem_cons_of_mem _ hm))]

theorem insertBeforeLastPlus_split (l1 l2 : List Char) (h : '+' ∉ l2) :
    insertBeforeLastPlus (l1 ++ '+' :: l2) = l1 ++ '1' :: '+' :: l2 := by
  induction l1 with
  | nil =>
    have hc : l2.contains '+' = false := by simpa using h
    simp only [List.nil_append]
    rw [insertBeforeLastPlus, hc]
    simp
  | cons a rest ih =>
    have hcon : ((rest ++ '+' :: l2).contains '+') = true := by simp
    rw [List.cons_append, insertBeforeLastPlus, hcon]
    simp only [Bool.not_true, Bool.and_false]
    rw [if_neg Bool.false_ne_true]
    simp [ih]

/-- C3: normalization strips all whitespace; the literal `1` is inserted
immediately before the last `+` of the cleaned (lower-cased,
whitespace/adduct-free) text and nowhere else; and on the two cited inputs it
yields exactly `"[m+h]1+"` and `"[m+2h]21+"` (the `1` lands before the final
`+` only, not the earlier ones). -/
theorem c3_adduct_normalization :
    (∀ s : String, ∀ c ∈ (normalize_adduct s).data, isSpaceChar c = false) ∧
    (∀ s : String,
      ('+' ∉ removeWsAdduct (pyLower s).data →
        (normalize_adduct s).data = removeWsAdduct (pyLower s).data) ∧
      (∀ l1 l2, removeWsAdduct (pyLower s).data = l1 ++ '+' :: l2 → '+' ∉ l2 →
        (normalize_adduct s).data = l1 ++ '1' :: '+' :: l2)) ∧
    normalize_adduct "[M+H]+ Adduct" = "[m+h]1+" ∧
    normalize_adduct "[M+2H]2+ Adduct" = "[m+2h]21+" := by
  refine ⟨?_, ?_, by decide, by decide⟩
  · intro s c hc
    unfold normalize_adduct at hc
    by_cases hs : (s == "") = true
    · rw [if_pos hs] at hc
      simp at hc
    · rw [if_neg hs] at hc
      rcases insertBeforeLastPlus_mem _ c hc with rfl | h2
      · decide
      · exact removeWsAdduct_no_space _ c h2
  · intro s
    constructor
    · intro hnp
      by_cases hs : (s == "") = true
      · obtain rfl : s = "" := by simpa using hs
        rfl
      · unfold normalize_adduct
        rw [if_neg hs]
        exact insertBeforeLastPlus_of_not_mem _ hnp
    · intro l1 l2 hsplit hnp2
      by_cases hs : (s == "") = true
      · exfalso
        obtain rfl : s = "" := by simpa using hs
        have hnil : removeWsAdduct (pyLower "").data = [] := rfl
        rw [hnil] at hsplit
        exact List.cons_ne_nil _ _ (List.append_eq_nil.mp hsplit.symm).2
      · unfold normalize_adduct
        rw [if_neg hs]
        show insertBeforeLastPlus (removeWsAdduct (pyLower s).data) = _
        rw [hsplit]
        exact insertBeforeLastPlus_split l1 l2 hnp2

/-- Witness for C3: instantiating the last-`+` insertion clause on `"a+b+"`
places the `1` before the final `+` only. -/
theorem c3_adduct_normalization_witness :
    (normalize_adduct "a+b+").data = ['a', '+', 'b', '1', '+'] := by
  have h := (c3_adduct_normalization.2.1 "a+b+").2 ['a', '+', 'b'] []
    (by decide) (by simp)
  simpa using h

/-! ## C5: partial-failure isolation -/

def c5n1 : ChemicalNode :=
  { id := "n1", label := "n1", node_type := .molecule,
    properties := [("usi", .str "u1"), ("library_SMILES", .str "CCO")] }

def c5n2 : ChemicalNode :=
  { id := "n2", label := "n2", node_type := .molecule,
    properties := [("charge", .str "1")] }

def c5n3 : ChemicalNode :=
  { id := "n3", label := "n3", node_type := .molecule,
    properties := [("usi", .str "u3")] }

def c5edgeMissing : ChemicalEdge :=
  { source := "n1", target := "nx", edge_type := .interaction,
    properties := [("adduct_1", .str "[M+H]+ Adduct")] }

def c5edgeNoUsi : ChemicalEdge :=
  { source := "n2", target := "n1", edge_type := .interaction,
    properties := [("adduct_1", .str "[M+H]+ Adduct")] }

def c5edgeOk : ChemicalEdge :=
  { source := "n1", target := "n3", edge_type := .interaction,
    properties := [("adduct_1", .str "[M+H]+ Adduct")] }

def c5net : ChemicalNetwork :=
  { nodes := [c5n1, c5n2, c5n3], edges := [c5edgeMissing, c5edgeNoUsi, c5edgeOk] }

/-- C5: for a node with three incident edges — one whose other endpoint
(`nx`) is missing from the graph, one whose other endpoint (`n2`) lacks an
analytical id, and one fully eligible (`n3`) — the per-node edge-link routine
creates exactly one link, classifies exactly one skip as missing analytical
id (`skipped_no_usi`, counted separately from the untouched
`skipped_no_adduct`), silently skips the unresolvable neighbour (visible as
the third checked edge producing neither a link nor a classified skip), and
raises no exception (the per-edge error list stays empty). -/
theorem c5_partial_failure_isolation :
    (_generate_modifinder_links_for_node c5net c5n1 "CCO" "2024-01-01T00:00:00").2 =
      { count := 1, edge_ids := ["n1-n3"], errors := [], skipped_no_usi := 1,
        skipped_no_adduct := 0, total_edges_checked := 3 } := by
  rfl

/-! ## C9: effective structure lookup -/

/-- C9: `get_effective_smiles` returns the record's `new_structure` iff a
record exists for the node's id and its status is `'applied'`; otherwise —
no record, or a record in `'pending'`/`'error'` — it returns the node's own
stored `library_SMILES` property, which may be absent. -/
theorem c9_effective_structure (anns : List (String × AnnotationRecord))
    (node : ChemicalNode) :
    (∀ r, get_annotation anns node.id = some r → r.status = "applied" →
      AnnotationManager.get_effective_smiles anns node = some (.str r.new_smiles)) ∧
    (∀ r, get_annotation anns node.id = some r → r.status ≠ "applied" →
      AnnotationManager.get_effective_smiles anns node =
        lookupKey node.properties "library_SMILES") ∧
    ( get_annotation anns node.id = none →
      AnnotationManager.get_effective_smiles anns node =
        lookupKey node.properties "library_SMILES") := by
  unfold AnnotationManager.get_effective_smiles
  refine ⟨?_, ?_, ?_⟩
  · intro r hr hs
    rw [hr]
    simp [hs]
  · intro r hr hs
    rw [hr]
    simp [hs]
  · intro h
    rw [h]

def c9rec : AnnotationRecord :=
  { node_id := "m1", original_smiles := none, new_smiles := "CC",
    timestamp := "t1", status := "applied" }

def c9node : ChemicalNode :=
  { id := "m1", label := "m1", node_type := .molecule, properties := [] }

/-- Witness for C9: an applied record overrides the node's absent property. -/
theorem c9_effective_structure_witness :
    AnnotationManager.get_effective_smiles [("m1", c9rec)] c9node =
      some (.str "CC") :=
  (c9_effective_structure [("m1", c9rec)] c9node).1 c9rec rfl rfl

/-! ## C10: early exit without a pending-updates store -/

theorem processPendingStep_keys_isSome (ts : String)
    (acc : ChemicalNetwork × SessionState × ProcessResults)
    (entry : String × PendingUpdate)
    (h : acc.2.2.modifinder_links_created.isSome ∧ acc.2.2.nodes_updated.isSome ∧
      acc.2.2.edges_updated.isSome) :
    (processPendingStep ts acc entry).2.2.modifinder_links_created.isSome ∧
    (processPendingStep ts acc entry).2.2.nodes_updated.isSome ∧
    (processPendingStep ts acc entry).2.2.edges_updated.isSome := by
  simp only [processPendingStep]
  split
  · simp
  · simpa using h

theorem foldPending_keys_isSome (ts : String) (l : List (String × PendingUpdate)) :
    ∀ acc : ChemicalNetwork × SessionState × ProcessResults,
      (acc.2.2.modifinder_links_created.isSome ∧ acc.2.2.nodes_updated.isSome ∧
        acc.2.2.edges_updated.isSome) →
      ((l.foldl (processPendingStep ts) acc).2.2.modifinder_links_created.isSome ∧
       (l.foldl (processPendingStep ts) acc).2.2.nodes_updated.isSome ∧
       (l.foldl (processPendingStep ts) acc).2.2.edges_updated.isSome) := by
  induction l with
  | nil => intro acc h; simpa using h
  | cons e rest ih =>
    intro acc h
    rw [List.foldl_cons]
    exact ih _ (processPendingStep_keys_isSome ts acc e h)

/-- C10: when the session holds no pending-updates store at all, the
processor returns the network unchanged together with the summary
`{processed: 0, errors: []}`, omitting the `modifinder_links_created`,
`nodes_updated` and `edges_updated` keys; every run that starts with a
(possibly empty) store carries all three of those keys. -/
theorem c10_missing_store_early_exit (sess : SessionState) (net : ChemicalNetwork)
    (ts : String) :
    (sess.pending_smiles_updates = none →
      process_pending_annotations sess net ts =
        (net, sess,
         { processed := 0, errors := [], modifinder_links_created := none,
           nodes_updated := none, edges_updated := none })) ∧
    (∀ l, sess.pending_smiles_updates = some l →
      ((process_pending_annotations sess net ts).2.2.modifinder_links_created.isSome ∧
       (process_pending_annotations sess net ts).2.2.nodes_updated.isSome ∧
       (process_pending_annotations sess net ts).2.2.edges_updated.isSome)) := by
  constructor
  · intro h
    unfold process_pending_annotations
    rw [h]
  · intro l h
    unfold process_pending_annotations
    rw [h]
    exact foldPending_keys_isSome ts l _ (by simp)

/-- Witness for C10: a session without the store early-exits with the two-key
summary; a session with an empty store carries all five keys. -/
theorem c10_missing_store_early_exit_witness :
    (process_pending_annotations {} { nodes := [], edges := [] } "t" =
      ({ nodes := [], edges := [] }, {},
       { processed := 0, errors := [], modifinder_links_created := none,
         nodes_updated := none, edges_updated := none })) ∧
    ((process_pending_annotations { pending_smiles_updates := some [] }
        { nodes := [], edges := [] } "t").2.2.modifinder_links_created.isSome ∧
     (process_pending_annotations { pending_smiles_updates := some [] }
        { nodes := [], edges := [] } "t").2.2.nodes_updated.isSome ∧
     (process_pending_annotations { pending_smiles_updates := some [] }
        { nodes := [], edges := [] } "t").2.2.edges_updated.isSome) :=
  ⟨(c10_missing_store_early_exit {} { nodes := [], edges := [] } "t").1 rfl,
   (c10_missing_store_early_exit { pending_smiles_updates := some [] }
      { nodes := [], edges := [] } "t").2 [] rfl⟩

/-! ## C7: atomic structure update -/

theorem set_annotation_status_id (n : ChemicalNode) (st : String)
    (ts : Option String) : (ChemicalNode.set_annotation_status n st ts).id = n.id := by
  cases ts with
  | none => rfl
  | some t =>
    by_cases h : (t != "") = true
    · simp [ChemicalNode.set_annotation_status, h]
    · simp [ChemicalNode.set_annotation_status, h]

theorem annotateNodeObj_id (n : ChemicalNode) (s : String) (ts : Option String) :
    (annotateNodeObj n s ts).id = n.id := by
  unfold annotateNodeObj
  rw [set_annotation_status_id]

theorem annotateNodeObj_props (n : ChemicalNode) (smiles : String)
    (ts : Option String) :
    lookupKey (annotateNodeObj n smiles ts).properties "library_SMILES" =
      some (.str smiles) ∧
    lookupKey (annotateNodeObj n smiles ts).properties "annotation_status" =
      some (.str "user_annotated") ∧
    (∀ t, ts = some t → t ≠ "" →
      lookupKey (annotateNodeObj n smiles ts).properties "annotation_timestamp" =
        some (.str t)) := by
  cases ts with
  | none =>
    have hp : (annotateNodeObj n smiles none).properties =
        setKey (setKey n.properties "library_SMILES" (.str smiles))
          "annotation_status" (.str "user_annotated") := rfl
    refine ⟨?_, ?_, ?_⟩
    · rw [hp, lookupKey_setKey_other _ _ _ _ (by decide), lookupKey_setKey_self]
    · rw [hp, lookupKey_setKey_self]
    · intro t ht
      cases ht
  | some t0 =>
    by_cases h : (t0 != "") = true
    · have hp : (annotateNodeObj n smiles (some t0)).properties =
          setKey (setKey (setKey n.properties "library_SMILES" (.str smiles))
              "annotation_status" (.str "user_annotated"))
            "annotation_timestamp" (.str t0) := by
        unfold annotateNodeObj ChemicalNode.set_annotation_status
        simp [h]
      refine ⟨?_, ?_, ?_⟩
      · rw [hp, lookupKey_setKey_other _ _ _ _ (by decide),
          lookupKey_setKey_other _ _ _ _ (by decide), lookupKey_setKey_self]
      · rw [hp, lookupKey_setKey_other _ _ _ _ (by decide), lookupKey_setKey_self]
      · intro t ht hne
        obtain rfl : t0 = t := Option.some.inj ht
        rw [hp, lookupKey_setKey_self]
    · have hp : (annotateNodeObj n smiles (some t0)).properties =
          setKey (setKey n.properties "library_SMILES" (.str smiles))
            "annotation_status" (.str "user_annotated") := by
        unfold annotateNodeObj ChemicalNode.set_annotation_status
        simp [h]
      refine ⟨?_, ?_, ?_⟩
      · rw [hp, lookupKey_setKey_other _ _ _ _ (by decide), lookupKey_setKey_self]
      · rw [hp, lookupKey_setKey_self]
      · intro t ht hne
        obtain rfl : t0 = t := Option.some.inj ht
        exact absurd (by simpa using h) hne

theorem find_updateFirstNode (l : List ChemicalNode) (nid : String)
    (f : ChemicalNode → ChemicalNode) (hf : ∀ n, (f n).id = n.id) :
    (updateFirstNode l nid f).find? (fun n => n.id == nid) =
      (l.find? (fun n => n.id == nid)).map f := by
  induction l with
  | nil => rfl
  | cons n rest ih =>
    by_cases h : (n.id == nid) = true
    · rw [updateFirstNode, if_pos h]
      have h1 : List.find? (fun m => m.id == nid) (f n :: rest) = some (f n) :=
        List.find?_cons_of_pos _ (by show ((f n).id == nid) = true; rw [hf n]; exact h)
      have h2 : List.find? (fun m => m.id == nid) (n :: rest) = some n :=
        List.find?_cons_of_pos _ h
      rw [h1, h2]
      rfl
    · rw [updateFirstNode, if_neg h]
      have h1 : List.find? (fun m => m.id == nid) (n :: updateFirstNode rest nid f) =
          List.find? (fun m => m.id == nid) (updateFirstNode rest nid f) :=
        List.find?_cons_of_neg _ h
      have h2 : List.find? (fun m => m.id == nid) (n :: rest) =
          List.find? (fun m => m.id == nid) rest :=
        List.find?_cons_of_neg _ h
      rw [h1, h2, ih]

theorem mem_updateFirstNode_of_ne (l : List ChemicalNode) (nid : String)
    (f : ChemicalNode → ChemicalNode) (m : ChemicalNode) (hm : m ∈ l)
    (hne : m.id ≠ nid) : m ∈ updateFirstNode l nid f := by
  induction l with
  | nil => cases hm
  | cons n rest ih =>
    by_cases h : (n.id == nid) = true
    · rw [updateFirstNode, if_pos h]
      rcases List.mem_cons.mp hm with rfl | hm'
      · exact absurd (by simpa using h) hne
      · exact List.mem_cons_of_mem _ hm'
    · rw [updateFirstNode, if_neg h]
      rcases List.mem_cons.mp hm with rfl | hm'
      · exact List.mem_cons_self _ _
      · exact List.mem_cons_of_mem _ (ih hm')

theorem mem_of_mem_updateFirstNode_of_ne (l : List ChemicalNode) (nid : String)
    (f : ChemicalNode → ChemicalNode) (hf : ∀ n, (f n).id = n.id)
    (m : ChemicalNode) (hm : m ∈ updateFirstNode l nid f) (hne : m.id ≠ nid) :
    m ∈ l := by
  induction l with
  | nil => simp [updateFirstNode] at hm
  | cons n rest ih =>
    by_cases h : (n.id == nid) = true
    · rw [updateFirstNode, if_pos h] at hm
      rcases List.mem_cons.mp hm with rfl | hm'
      · exact absurd (by rw [hf]; simpa using h) hne
      · exact List.mem_cons_of_mem _ hm'
    · rw [updateFirstNode, if_neg h] at hm
      rcases List.mem_cons.mp hm with rfl | hm'
      · exact List.mem_cons_self _ _
      · exact List.mem_cons_of_mem _ (ih hm')

/-- C7 (amended): if the node is absent the update returns `false` and the
network is untouched; if present, it returns `true`, rewrites exactly the
first node with that id — setting `library_SMILES`, `annotation_status =
'user_annotated'`, and `annotation_timestamp` whenever the given timestamp is
non-empty (a falsy timestamp leaves the previous value untouched) — and
mutates no edge and no other node. -/
theorem c7_structure_update (net : ChemicalNetwork) (node_id smiles : String)
    (ts : Option String) :
    (net.get_node_by_id node_id = none →
      net.apply_annotation_to_node node_id smiles ts = (net, false)) ∧
    (∀ n0, net.get_node_by_id node_id = some n0 →
      (net.apply_annotation_to_node node_id smiles ts).2 = true ∧
      (net.apply_annotation_to_node node_id smiles ts).1.edges = net.edges ∧
      (net.apply_annotation_to_node node_id smiles ts).1.get_node_by_id node_id =
        some (annotateNodeObj n0 smiles ts) ∧
      lookupKey (annotateNodeObj n0 smiles ts).properties "library_SMILES" =
        some (.str smiles) ∧
      lookupKey (annotateNodeObj n0 smiles ts).properties "annotation_status" =
        some (.str "user_annotated") ∧
      (∀ t, ts = some t → t ≠ "" →
        lookupKey (annotateNodeObj n0 smiles ts).properties "annotation_timestamp" =
          some (.str t)) ∧
      (∀ m, m ∈ net.nodes → m.id ≠ node_id →
        m ∈ (net.apply_annotation_to_node node_id smiles ts).1.nodes) ∧
      (∀ m, m ∈ (net.apply_annotation_to_node node_id smiles ts).1.nodes →
        m.id ≠ node_id → m ∈ net.nodes)) := by
  constructor
  · intro h
    unfold ChemicalNetwork.apply_annotation_to_node
    rw [h]
  · intro n0 h
    have hprops := annotateNodeObj_props n0 smiles ts
    unfold ChemicalNetwork.apply_annotation_to_node
    rw [h]
    refine ⟨rfl, rfl, ?_, hprops.1, hprops.2.1, hprops.2.2, ?_, ?_⟩
    · show (updateFirstNode net.nodes node_id _).find? _ = _
      rw [find_updateFirstNode _ _ _ (fun n => annotateNodeObj_id n smiles ts)]
      unfold ChemicalNetwork.get_node_by_id at h
      rw [h]
      rfl
    · intro m hm hne
      exact mem_updateFirstNode_of_ne _ _ _ _ hm hne
    · intro m hm hne
      exact mem_of_mem_updateFirstNode_of_ne _ _ _
        (fun n => annotateNodeObj_id n smiles ts) _ hm hne

def c7node : ChemicalNode :=
  { id := "m1", label := "m1", node_type := .molecule,
    properties := [("annotation_timestamp", .str "old")] }

def c7net : ChemicalNetwork := { nodes := [c7node], edges := [] }

/-- Counterexample for C7 as stated: with the (falsy) empty timestamp `""`
the update succeeds, yet `annotation_timestamp` keeps its previous value
`"old"` instead of being set to the given timestamp — so "sets
`annotation_timestamp` to the given timestamp" fails for that timestamp. -/
theorem c7_structure_update_counterexample :
    (c7net.apply_annotation_to_node "m1" "CCO" (some "")).2 = true ∧
    ((c7net.apply_annotation_to_node "m1" "CCO" (some "")).1.get_node_by_id "m1").map
        (fun n => lookupKey n.properties "annotation_timestamp") =
      some (some (.str "old")) ∧
    some (some (PropValue.str "old")) ≠ some (some (PropValue.str "")) :=
  ⟨rfl, rfl, by decide⟩

/-- Witness for C7 (amended) at a non-empty timestamp. -/
theorem c7_structure_update_witness :
    (c7net.apply_annotation_to_node "m1" "CCO" (some "2024-01-02T00:00:00")).2 = true ∧
    lookupKey (annotateNodeObj c7node "CCO" (some "2024-01-02T00:00:00")).properties
        "annotation_timestamp" = some (.str "2024-01-02T00:00:00") := by
  have h := (c7_structure_update c7net "m1" "CCO" (some "2024-01-02T00:00:00")).2
    c7node rfl
  exact ⟨h.1, h.2.2.2.2.2.1 _ rfl (by decide)⟩

/-! ## C4: URL shape on success -/

theorem truthyStrip_isSome (v : Option PropValue) (h : truthyStrip v = true) :
    ∃ x, v = some x := by
  cases v with
  | none => simp [truthyStrip] at h
  | some x => exact ⟨x, rfl⟩

/-- C4 (amended): whenever generation succeeds, the returned string is the
base URL followed by the query parameters in exactly this order and casing —
`USI1`, `USI2`, an empty `Helpers`, `Adduct` (normalized), `ppm_tolerance`
(default 40), `filter_peaks_variable` (default 0.01), `SMILES1` — where each
USI wraps the node's raw analytical id in the fixed
`mzspec:GNPS2:TASK-<task>-input_spectra/<raw-id>` template, and the `SMILES1`
value is the structure with newlines removed and leading/trailing whitespace
trimmed. -/
theorem c4_url_shape (node1 node2 : ChemicalNode) (smiles : String)
    (edge : Option ChemicalEdge) (link : String)
    (h : generate_modifinder_link node1 node2 smiles edge = some link) :
    ∃ u1 u2 ad,
      lookupKey node1.properties "usi" = some u1 ∧
      lookupKey node2.properties "usi" = some u2 ∧
      resolvedAdduct node1 edge = some ad ∧
      generate_usi (pyStr u1) =
        "mzspec:GNPS2:TASK-" ++ GNPS_TASK ++ "-input_spectra/" ++ pyStr u1 ∧
      toString (40 : Nat) = "40" ∧
      link = BASE_URL ++ "?" ++
        "USI1=" ++ generate_usi (pyStr u1) ++ "&" ++
        "USI2=" ++ generate_usi (pyStr u2) ++ "&" ++
        "Helpers=&" ++
        "Adduct=" ++ normalize_adduct (pyStr ad) ++ "&" ++
        "ppm_tolerance=" ++ toString (40 : Nat) ++ "&" ++
        "filter_peaks_variable=" ++ "0.01" ++ "&" ++
        "SMILES1=" ++ pyStrip (removeNewlines smiles) := by
  have hc : can_generate_link node1 node2 smiles edge = true := by
    by_contra hcn
    rw [generate_modifinder_link] at h
    rw [if_pos (by simp_all)] at h
    exact Option.noConfusion h
  have hc4 := hc
  unfold can_generate_link at hc4
  simp only [Bool.and_eq_true] at hc4
  obtain ⟨⟨⟨ht1, ht2⟩, ht3⟩, -⟩ := hc4
  obtain ⟨u1, hu1⟩ := truthyStrip_isSome _ ht1
  obtain ⟨u2, hu2⟩ := truthyStrip_isSome _ ht2
  obtain ⟨ad, had⟩ := truthyStrip_isSome _ ht3
  rw [generate_modifinder_link, if_neg (by simp [hc]), hu1, hu2, had] at h
  exact ⟨u1, u2, ad, hu1, hu2, had, rfl, by decide, (Option.some.inj h).symm⟩

def c4n1 : ChemicalNode :=
  { id := "a", label := "a", node_type := .molecule,
    properties := [("usi", .str "ua"), ("adduct_1", .str "[M+H]+")] }

def c4n2 : ChemicalNode :=
  { id := "b", label := "b", node_type := .molecule,
    properties := [("usi", .str "ub")] }

def c4edge : ChemicalEdge :=
  { source := "a", target := "b", edge_type := .interaction,
    properties := [("adduct_1", .str "[M+2H]2+")] }

/-- Counterexample for C4 as stated: with structure `" CCO"` (leading blank,
no newline) generation succeeds, but the produced URL ends in `SMILES1=CCO`:
the structure was also stripped of surrounding whitespace, whereas the
structure with only its newlines removed is still `" CCO"`, so the claimed
URL (ending `SMILES1= CCO`) differs from the actual one. -/
theorem c4_url_shape_counterexample :
    generate_modifinder_link c4n1 c4n2 " CCO" none =
      some ("https://modifinder.gnps2.org/?USI1=mzspec:GNPS2:TASK-43ab1bb3ce8d468a8dce177763c0ffb1-input_spectra/ua&USI2=mzspec:GNPS2:TASK-43ab1bb3ce8d468a8dce177763c0ffb1-input_spectra/ub&Helpers=&Adduct=[m+h]1+&ppm_tolerance=40&filter_peaks_variable=0.01&SMILES1=CCO") ∧
    removeNewlines " CCO" = " CCO" ∧
    "https://modifinder.gnps2.org/?USI1=mzspec:GNPS2:TASK-43ab1bb3ce8d468a8dce177763c0ffb1-input_spectra/ua&USI2=mzspec:GNPS2:TASK-43ab1bb3ce8d468a8dce177763c0ffb1-input_spectra/ub&Helpers=&Adduct=[m+h]1+&ppm_tolerance=40&filter_peaks_variable=0.01&SMILES1=CCO" ≠
    "https://modifinder.gnps2.org/?USI1=mzspec:GNPS2:TASK-43ab1bb3ce8d468a8dce177763c0ffb1-input_spectra/ua&USI2=mzspec:GNPS2:TASK-43ab1bb3ce8d468a8dce177763c0ffb1-input_spectra/ub&Helpers=&Adduct=[m+h]1+&ppm_tolerance=40&filter_peaks_variable=0.01&SMILES1= CCO" :=
  ⟨by decide, by decide, by decide⟩

/-- Witness for C4 (amended) at a concrete eligible input whose structure
carries an embedded newline. -/
theorem c4_url_shape_witness :
    ∃ u1 u2 ad,
      lookupKey c4n1.properties "usi" = some u1 ∧
      lookupKey c4n2.properties "usi" = some u2 ∧
      resolvedAdduct c4n1 (some c4edge) = some ad ∧
      generate_usi (pyStr u1) =
        "mzspec:GNPS2:TASK-" ++ GNPS_TASK ++ "-input_spectra/" ++ pyStr u1 ∧
      toString (40 : Nat) = "40" ∧
      ("https://modifinder.gnps2.org/?USI1=mzspec:GNPS2:TASK-43ab1bb3ce8d468a8dce177763c0ffb1-input_spectra/ua&USI2=mzspec:GNPS2:TASK-43ab1bb3ce8d468a8dce177763c0ffb1-input_spectra/ub&Helpers=&Adduct=[m+2h]21+&ppm_tolerance=40&filter_peaks_variable=0.01&SMILES1=CCO" : String) =
        BASE_URL ++ "?" ++
        "USI1=" ++ generate_usi (pyStr u1) ++ "&" ++
        "USI2=" ++ generate_usi (pyStr u2) ++ "&" ++
        "Helpers=&" ++
        "Adduct=" ++ normalize_adduct (pyStr ad) ++ "&" ++
        "ppm_tolerance=" ++ toString (40 : Nat) ++ "&" ++
        "filter_peaks_variable=" ++ "0.01" ++ "&" ++
        "SMILES1=" ++ pyStrip (removeNewlines "C\nCO") :=
  c4_url_shape c4n1 c4n2 "C\nCO" (some c4edge)
    "https://modifinder.gnps2.org/?USI1=mzspec:GNPS2:TASK-43ab1bb3ce8d468a8dce177763c0ffb1-input_spectra/ua&USI2=mzspec:GNPS2:TASK-43ab1bb3ce8d468a8dce177763c0ffb1-input_spectra/ub&Helpers=&Adduct=[m+2h]21+&ppm_tolerance=40&filter_peaks_variable=0.01&SMILES1=CCO"
    (by decide)

/-! ## C6: the orchestrator's public entry point -/

theorem processPendingStep_current_project (ts : String)
    (acc : ChemicalNetwork × SessionState × ProcessResults)
    (entry : String × PendingUpdate) :
    (processPendingStep ts acc entry).2.1.current_project =
      acc.2.1.current_project := by
  simp only [processPendingStep]
  split <;> rfl

theorem foldPending_current_project (ts : String)
    (l : List (String × PendingUpdate)) :
    ∀ acc : ChemicalNetwork × SessionState × ProcessResults,
      (l.foldl (processPendingStep ts) acc).2.1.current_project =
        acc.2.1.current_project := by
  induction l with
  | nil => intro acc; rfl
  | cons e rest ih =>
    intro acc
    rw [List.foldl_cons, ih, processPendingStep_current_project]

theorem process_pending_current_project (sess : SessionState)
    (net : ChemicalNetwork) (ts : String) :
    (process_pending_annotations sess net ts).2.1.current_project =
      sess.current_project := by
  unfold process_pending_annotations
  cases h : sess.pending_smiles_updates with
  | none => rfl
  | some l => exact foldPending_current_project ts l _

theorem marked_color (n : ChemicalNode) (h : (markNodeObj n).is_annotated = true) :
    (markNodeObj n).color = some "#2196F3" := by
  by_cases hn : n.is_annotated = true
  · unfold markNodeObj
    rw [if_pos hn]
  · unfold markNodeObj at h
    rw [if_neg hn] at h
    exact absurd h hn

theorem save_current_project_eq (sess' : SessionState) (ok : Bool) :
    save_current_project sess' ok = (sess'.current_project.isSome && ok) := by
  unfold save_current_project
  cases sess'.current_project <;> simp

/-- C6: `apply_all_pending_updates` is a total function of its state — every
fallible sub-step is a sentinel value, so no exception can reach the caller —
which returns exactly the results object of `process_pending_annotations`,
marks every annotated node of the returned network with the highlight color,
and persists via the project-scoped save, taking the legacy unscoped fallback
precisely when no project context is active or the project write fails. -/
theorem c6_apply_all_contract (sess : SessionState) (net : ChemicalNetwork)
    (ts : String) (file_write_ok : Bool) :
    (apply_all_pending_updates sess net ts file_write_ok).2.2.1 =
      (process_pending_annotations sess net ts).2.2 ∧
    (apply_all_pending_updates sess net ts file_write_ok).1 =
      _mark_annotated_nodes (process_pending_annotations sess net ts).1 ∧
    (∀ n, n ∈ (apply_all_pending_updates sess net ts file_write_ok).1.nodes →
      n.is_annotated = true → n.color = some "#2196F3") ∧
    (sess.current_project = none →
      (apply_all_pending_updates sess net ts file_write_ok).2.2.2 =
        SavePath.legacyFallback) ∧
    (∀ p, sess.current_project = some p → file_write_ok = true →
      (apply_all_pending_updates sess net ts file_write_ok).2.2.2 =
        SavePath.project) := by
  refine ⟨rfl, rfl, ?_, ?_, ?_⟩
  · intro n hn hann
    have hn' : n ∈ ((process_pending_annotations sess net ts).1.nodes.map markNodeObj) := hn
    obtain ⟨m, -, rfl⟩ := List.mem_map.mp hn'
    exact marked_color m hann
  · intro h
    show (if save_current_project (process_pending_annotations sess net ts).2.1
        file_write_ok = true then SavePath.project else SavePath.legacyFallback) =
      SavePath.legacyFallback
    rw [save_current_project_eq, process_pending_current_project, h]
    simp
  · intro p hp hok
    show (if save_current_project (process_pending_annotations sess net ts).2.1
        file_write_ok = true then SavePath.project else SavePath.legacyFallback) =
      SavePath.project
    rw [save_current_project_eq, process_pending_current_project, hp, hok]
    simp

/-- Witness for C6: without a project context the legacy fallback is taken;
with one and a successful write the project path is taken. -/
theorem c6_apply_all_contract_witness :
    (apply_all_pending_updates {} { nodes := [], edges := [] } "t" true).2.2.2 =
      SavePath.legacyFallback ∧
    (apply_all_pending_updates { current_project := some "proj" }
        { nodes := [], edges := [] } "t" true).2.2.2 = SavePath.project :=
  ⟨(c6_apply_all_contract {} { nodes := [], edges := [] } "t" true).2.2.2.1 rfl,
   (c6_apply_all_contract { current_project := some "proj" }
      { nodes := [], edges := [] } "t" true).2.2.2.2 "proj" rfl rfl⟩

/-! ## C8: annotation record lifecycle -/

theorem genLinks_nodes (net : ChemicalNetwork) (an : ChemicalNode) (sm ts : String) :
    (_generate_modifinder_links_for_node net an sm ts).1.nodes = net.nodes := rfl

theorem map_id_updateFirstNode (l : List ChemicalNode) (nid : String)
    (f : ChemicalNode → ChemicalNode) (hf : ∀ n, (f n).id = n.id) :
    (updateFirstNode l nid f).map (fun n => n.id) = l.map (fun n => n.id) := by
  induction l with
  | nil => rfl
  | cons n rest ih =>
    by_cases h : (n.id == nid) = true
    · rw [updateFirstNode, if_pos h]
      simp [hf]
    · rw [updateFirstNode, if_neg h]
      simp only [List.map_cons]
      rw [ih]

theorem get_node_by_id_isSome_iff (net : ChemicalNetwork) (nid : String) :
    (net.get_node_by_id nid).isSome = true ↔ nid ∈ net.nodes.map (fun n => n.id) := by
  unfold ChemicalNetwork.get_node_by_id
  rw [List.find?_isSome]
  simp only [List.mem_map, beq_iff_eq]

theorem psa_not_found (net : ChemicalNetwork)
    (anns : List (String × AnnotationRecord)) (nid sm ts : String)
    (h : net.get_node_by_id nid = none) :
    _process_single_annotation net anns nid sm ts =
      (net, anns, false,
       { error := some ("Node " ++ nid ++ " not found in network") }) := by
  unfold _process_single_annotation
  rw [h]

/-- The network state after the structure write of
`_process_single_annotation` (proof-layer abbreviation). -/
def annotatedNet (net : ChemicalNetwork) (nid sm ts : String) : ChemicalNetwork :=
  { net with
    nodes := updateFirstNode net.nodes nid (fun n => annotateNodeObj n sm (some ts)) }

theorem psa_found (net : ChemicalNetwork)
    (anns : List (String × AnnotationRecord)) (nid sm ts : String)
    (n0 : ChemicalNode) (h : net.get_node_by_id nid = some n0) :
    _process_single_annotation net anns nid sm ts =
      ((_generate_modifinder_links_for_node (annotatedNet net nid sm ts)
          (annotateNodeObj n0 sm (some ts)) sm ts).1,
       update_annotation_status anns nid "applied" none, true,
       { links_created := (_generate_modifinder_links_for_node
            (annotatedNet net nid sm ts) (annotateNodeObj n0 sm (some ts)) sm ts).2.count,
         edges_updated := (_generate_modifinder_links_for_node
            (annotatedNet net nid sm ts) (annotateNodeObj n0 sm (some ts)) sm ts).2.edge_ids,
         error := none }) := by
  unfold _process_single_annotation ChemicalNetwork.apply_annotation_to_node
  rw [h]
  rfl

theorem step_ids (ts : String) (acc : ChemicalNetwork × SessionState × ProcessResults)
    (entry : String × PendingUpdate) :
    (processPendingStep ts acc entry).1.nodes.map (fun n => n.id) =
      acc.1.nodes.map (fun n => n.id) := by
  simp only [processPendingStep]
  cases h : acc.1.get_node_by_id entry.1 with
  | none =>
    rw [psa_not_found _ _ _ _ _ h]
    simp
  | some n0 =>
    rw [psa_found _ _ _ _ _ _ h]
    simp only []
    rw [if_pos trivial]
    show ((_generate_modifinder_links_for_node _ _ _ _).1.nodes).map _ = _
    rw [genLinks_nodes]
    exact map_id_updateFirstNode _ _ _
      (fun n => annotateNodeObj_id n entry.2.new_smiles (some ts))

theorem step_keeps_other_ann (ts : String)
    (acc : ChemicalNetwork × SessionState × ProcessResults)
    (entry : String × PendingUpdate) (nid : String) (hne : entry.1 ≠ nid) :
    lookupKey (processPendingStep ts acc entry).2.1.node_annotations nid =
      lookupKey acc.2.1.node_annotations nid := by
  simp only [processPendingStep]
  cases h : acc.1.get_node_by_id entry.1 with
  | none =>
    rw [psa_not_found _ _ _ _ _ h]
    exact rfl
  | some n0 =>
    rw [psa_found _ _ _ _ _ _ h]
    simp only []
    rw [if_pos trivial]
    show lookupKey (update_annotation_status acc.2.1.node_annotations entry.1
      "applied" none) nid = _
    exact lookup_update_status_other _ _ _ _ _ (Ne.symm hne)

theorem step_applied (ts : String)
    (acc : ChemicalNetwork × SessionState × ProcessResults)
    (entry : String × PendingUpdate)
    (hsome : (acc.1.get_node_by_id entry.1).isSome = true) :
    lookupKey (processPendingStep ts acc entry).2.1.node_annotations entry.1 =
      (lookupKey acc.2.1.node_annotations entry.1).map
        (fun r => { r with status := "applied" }) := by
  simp only [processPendingStep]
  obtain ⟨n0, h⟩ := Option.isSome_iff_exists.mp hsome
  rw [psa_found _ _ _ _ _ _ h]
  simp only []
  rw [if_pos trivial]
  show lookupKey (update_annotation_status acc.2.1.node_annotations entry.1
    "applied" none) entry.1 = _
  exact lookup_update_status_self _ _ _

theorem step_absent (ts : String)
    (acc : ChemicalNetwork × SessionState × ProcessResults)
    (entry : String × PendingUpdate)
    (h : acc.1.get_node_by_id entry.1 = none) :
    (processPendingStep ts acc entry).2.1.node_annotations =
      acc.2.1.node_annotations ∧
    (processPendingStep ts acc entry).2.2.errors =
      acc.2.2.errors ++
        ["Node " ++ entry.1 ++ ": " ++
          ("Node " ++ entry.1 ++ " not found in network")] := by
  simp only [processPendingStep]
  rw [psa_not_found _ _ _ _ _ h]
  exact ⟨rfl, rfl⟩

theorem step_errors_mono (ts : String)
    (acc : ChemicalNetwork × SessionState × ProcessResults)
    (entry : String × PendingUpdate) (x : String) (hx : x ∈ acc.2.2.errors) :
    x ∈ (processPendingStep ts acc entry).2.2.errors := by
  simp only [processPendingStep]
  cases h : acc.1.get_node_by_id entry.1 with
  | none =>
    rw [psa_not_found _ _ _ _ _ h]
    exact List.mem_append_left _ hx
  | some n0 =>
    rw [psa_found _ _ _ _ _ _ h]
    exact hx

theorem foldPending_ids (ts : String) (l : List (String × PendingUpdate)) :
    ∀ acc : ChemicalNetwork × SessionState × ProcessResults,
      (l.foldl (processPendingStep ts) acc).1.nodes.map (fun n => n.id) =
        acc.1.nodes.map (fun n => n.id) := by
  induction l with
  | nil => intro acc; rfl
  | cons e rest ih =>
    intro acc
    rw [List.foldl_cons, ih, step_ids]

theorem foldPending_errors_mono (ts : String) (l : List (String × PendingUpdate)) :
    ∀ (acc : ChemicalNetwork × SessionState × ProcessResults) (x : String),
      x ∈ acc.2.2.errors → x ∈ (l.foldl (processPendingStep ts) acc).2.2.errors := by
  induction l with
  | nil => intro acc x hx; exact hx
  | cons e rest ih =>
    intro acc x hx
    rw [List.foldl_cons]
    exact ih _ x (step_errors_mono ts acc e x hx)

theorem foldPending_keeps_other (ts nid : String)
    (l : List (String × PendingUpdate)) :
    ∀ acc : ChemicalNetwork × SessionState × ProcessResults,
      nid ∉ l.map Prod.fst →
      lookupKey ((l.foldl (processPendingStep ts) acc).2.1.node_annotations) nid =
        lookupKey acc.2.1.node_annotations nid := by
  induction l with
  | nil => intro acc _; rfl
  | cons e rest ih =>
    intro acc hnin
    rw [List.foldl_cons]
    have h1 : nid ∉ rest.map Prod.fst := fun hm => hnin (by simp [hm])
    have h2 : e.1 ≠ nid := fun he => hnin (by simp [he])
    rw [ih _ h1, step_keeps_other_ann ts acc e nid h2]

theorem foldPending_absent_keeps (ts nid : String)
    (l : List (String × PendingUpdate)) :
    ∀ acc : ChemicalNetwork × SessionState × ProcessResults,
      nid ∉ acc.1.nodes.map (fun n => n.id) →
      lookupKey ((l.foldl (processPendingStep ts) acc).2.1.node_annotations) nid =
        lookupKey acc.2.1.node_annotations nid := by
  induction l with
  | nil => intro acc _; rfl
  | cons e rest ih =>
    intro acc hnin
    rw [List.foldl_cons]
    rw [ih _ (by rw [step_ids]; exact hnin)]
    by_cases he : e.1 = nid
    · have hnone : acc.1.get_node_by_id e.1 = none := by
        cases hcase : acc.1.get_node_by_id e.1 with
        | none => rfl
        | some n0 =>
          exact absurd
            (he ▸ (get_node_by_id_isSome_iff _ _).mp (by rw [hcase]; rfl)) hnin
      rw [(step_absent ts acc e hnone).1]
    · exact step_keeps_other_ann ts acc e nid he

theorem foldPending_applied (ts nid : String) (l : List (String × PendingUpdate)) :
    ∀ (acc : ChemicalNetwork × SessionState × ProcessResults)
      (r : AnnotationRecord),
      (l.map Prod.fst).Nodup →
      nid ∈ l.map Prod.fst →
      nid ∈ acc.1.nodes.map (fun n => n.id) →
      lookupKey acc.2.1.node_annotations nid = some r →
      lookupKey ((l.foldl (processPendingStep ts) acc).2.1.node_annotations) nid =
        some { r with status := "applied" } := by
  induction l with
  | nil => intro acc r _ hmem _ _; simp at hmem
  | cons e rest ih =>
    intro acc r hnd hmem hid hr
    rw [List.foldl_cons]
    rw [List.map_cons] at hnd hmem
    by_cases he : e.1 = nid
    · have hnotin : nid ∉ rest.map Prod.fst := by
        have h0 := (List.nodup_cons.mp hnd).1
        rw [← he]
        exact h0
      rw [foldPending_keeps_other ts nid rest _ hnotin]
      have hsome : (acc.1.get_node_by_id e.1).isSome = true := by
        rw [he]
        exact (get_node_by_id_isSome_iff _ _).mpr hid
      have hstep := step_applied ts acc e hsome
      rw [he] at hstep
      rw [hstep, hr]
      rfl
    · have hmem' : nid ∈ rest.map Prod.fst := by
        rcases List.mem_cons.mp hmem with h1 | h1
        · exact absurd h1.symm he
        · exact h1
      have hnd' : (rest.map Prod.fst).Nodup := (List.nodup_cons.mp hnd).2
      refine ih _ r hnd' hmem' ?_ ?_
      · rw [step_ids]; exact hid
      · rw [step_keeps_other_ann ts acc e nid he]; exact hr

theorem foldPending_failed (ts nid : String) (l : List (String × PendingUpdate)) :
    ∀ (acc : ChemicalNetwork × SessionState × ProcessResults)
      (r : AnnotationRecord),
      nid ∈ l.map Prod.fst →
      nid ∉ acc.1.nodes.map (fun n => n.id) →
      lookupKey acc.2.1.node_annotations nid = some r →
      (lookupKey ((l.foldl (processPendingStep ts) acc).2.1.node_annotations) nid =
        some r ∧
       ("Node " ++ nid ++ ": " ++ ("Node " ++ nid ++ " not found in network")) ∈
        (l.foldl (processPendingStep ts) acc).2.2.errors) := by
  induction l with
  | nil => intro acc r hmem _ _; simp at hmem
  | cons e rest ih =>
    intro acc r hmem hnin hr
    rw [List.foldl_cons]
    rw [List.map_cons] at hmem
    by_cases he : e.1 = nid
    · have hnone : acc.1.get_node_by_id e.1 = none := by
        cases hcase : acc.1.get_node_by_id e.1 with
        | none => rfl
        | some n0 =>
          exact absurd
            (he ▸ (get_node_by_id_isSome_iff _ _).mp (by rw [hcase]; rfl)) hnin
      have habs := step_absent ts acc e hnone
      constructor
      · rw [foldPending_absent_keeps ts nid rest _ (by rw [step_ids]; exact hnin),
          habs.1]
        exact hr
      · refine foldPending_errors_mono ts rest _ _ ?_
        rw [habs.2, he]
        exact List.mem_append_right _ (List.mem_singleton.mpr rfl)
    · have hmem' : nid ∈ rest.map Prod.fst := by
        rcases List.mem_cons.mp hmem with h1 | h1
        · exact absurd h1.symm he
        · exact h1
      refine ih _ r hmem' ?_ ?_
      · rw [step_ids]; exact hnin
      · rw [step_keeps_other_ann ts acc e nid he]; exact hr

/-- C8 (amended): for an annotation record in status `'pending'` whose node
id appears in the pending-updates store, one processing pass transitions the
record to `'applied'` when the target node is found (the structure write then
always succeeds); when the node cannot be found, a per-node error string is
appended to the results and the record is left as-is in status `'pending'` —
retryable on the next call, not transitioned to `'error'`. -/
theorem c8_record_lifecycle (sess : SessionState) (net : ChemicalNetwork)
    (ts : String) (l : List (String × PendingUpdate)) (nid : String)
    (r : AnnotationRecord)
    (hp : sess.pending_smiles_updates = some l)
    (hnd : (l.map Prod.fst).Nodup)
    (hmem : nid ∈ l.map Prod.fst)
    (hr : get_annotation sess.node_annotations nid = some r)
    (hpend : r.status = "pending") :
    ((net.get_node_by_id nid).isSome = true →
      get_annotation (process_pending_annotations sess net ts).2.1.node_annotations
          nid = some { r with status := "applied" }) ∧
    (net.get_node_by_id nid = none →
      get_annotation (process_pending_annotations sess net ts).2.1.node_annotations
          nid = some r ∧
      r.status = "pending" ∧
      ("Node " ++ nid ++ ": " ++ ("Node " ++ nid ++ " not found in network")) ∈
        (process_pending_annotations sess net ts).2.2.errors) := by
  unfold process_pending_annotations
  rw [hp]
  constructor
  · intro hfound
    exact foldPending_applied ts nid l
      (net, sess,
        { processed := 0, errors := [], modifinder_links_created := some 0,
          nodes_updated := some [], edges_updated := some [] })
      r hnd hmem ((get_node_by_id_isSome_iff _ _).mp hfound) hr
  · intro hnone
    have hnot : nid ∉ net.nodes.map (fun n => n.id) := by
      intro hin
      have h1 := (get_node_by_id_isSome_iff net nid).mpr hin
      rw [hnone] at h1
      simp at h1
    have hfail := foldPending_failed ts nid l
      (net, sess,
        { processed := 0, errors := [], modifinder_links_created := some 0,
          nodes_updated := some [], edges_updated := some [] })
      r hmem hnot hr
    exact ⟨hfail.1, hpend, hfail.2⟩

def c8xrec : AnnotationRecord :=
  { node_id := "nX", original_smiles := none, new_smiles := "CC",
    timestamp := "t0", status := "pending" }

def c8xsess : SessionState :=
  { pending_smiles_updates := some [("nX", { new_smiles := "CC", timestamp := "t0" })],
    node_annotations := [("nX", c8xrec)] }

def c8xnet : ChemicalNetwork := { nodes := [], edges := [] }

/-- Counterexample for C8 as stated: processing a pending annotation whose
target node is missing records the error in the results but leaves the
record's status `'pending'` — it never transitions to `'error'`, so a failed
record does remain in status `'pending'` after the pass. -/
theorem c8_record_lifecycle_counterexample :
    Option.map (fun r => r.status)
        ( get_annotation
          (process_pending_annotations c8xsess c8xnet "T").2.1.node_annotations "nX") =
      some "pending" ∧
    (process_pending_annotations c8xsess c8xnet "T").2.2.errors =
      ["Node nX: Node nX not found in network"] ∧
    ("pending" : String) ≠ "error" :=
  ⟨rfl, rfl, by decide⟩

def c8wnode : ChemicalNode :=
  { id := "w1", label := "w1", node_type := .molecule, properties := [] }

def c8wnet : ChemicalNetwork := { nodes := [c8wnode], edges := [] }

def c8wrec : AnnotationRecord :=
  { node_id := "w1", original_smiles := none, new_smiles := "CC",
    timestamp := "t0", status := "pending" }

def c8wupd : PendingUpdate := { new_smiles := "CC", timestamp := "t0" }

def c8wsess : SessionState :=
  { pending_smiles_updates := some [("w1", c8wupd)],
    node_annotations := [("w1", c8wrec)] }

/-- Witness for C8 (amended): a pending record for an existing node is
transitioned to `'applied'` by one processing pass. -/
theorem c8_record_lifecycle_witness :
    get_annotation (process_pending_annotations c8wsess c8wnet "t").2.1.node_annotations
        "w1" = some { c8wrec with status := "applied" } :=
  (c8_record_lifecycle c8wsess c8wnet "t" [("w1", c8wupd)] "w1" c8wrec rfl
      (by decide) (by decide) rfl rfl).1 rfl

/-! ## C2: idempotence of bulk re-derivation -/

/-- The edge attributes the link generator reads: the endpoints and the
`adduct_1` property. -/
def edgeView (e : ChemicalEdge) : String × String × Option PropValue :=
  (e.source, e.target, lookupKey e.properties "adduct_1")

/-- The per-edge effect of one per-node pass (the result counters never
influence the produced edge). -/
def passEdge (nodes : List ChemicalNode) (an : ChemicalNode) (sm ts : String)
    (e : ChemicalEdge) : ChemicalEdge :=
  if e.source == an.id || e.target == an.id then
    (processIncidentEdge nodes an sm ts e {}).1
  else e

/-- Iterating the per-edge effect over the bulk run's per-node jobs. -/
def runEdges (nodes : List ChemicalNode) (ts : String) :
    List (ChemicalNode × String) → ChemicalEdge → ChemicalEdge
  | [], e => e
  | (an, sm) :: rest, e => runEdges nodes ts rest (passEdge nodes an sm ts e)

/-- The link one per-node pass would produce for an incident edge. -/
def linkFor (nodes : List ChemicalNode) (an : ChemicalNode) (sm : String)
    (e : ChemicalEdge) : Option String :=
  match nodes.find?
      (fun n => n.id == (if e.source == an.id then e.target else e.source)) with
  | none => none
  | some sec => generate_modifinder_link an sec sm (some e)

/-- The last link the job list produces for an edge, if any. -/
def lastLink (nodes : List ChemicalNode) :
    List (ChemicalNode × String) → ChemicalEdge → Option String
  | [], _ => none
  | (an, sm) :: rest, e =>
    match lastLink nodes rest e with
    | some l => some l
    | none =>
      if e.source == an.id || e.target == an.id then linkFor nodes an sm e else none

/-- The bulk run's job list over a node list: each node with a truthy
effective structure paired with that structure's string form. -/
def jobsOf (ns : List ChemicalNode) : List (ChemicalNode × String) :=
  ns.filterMap (fun n =>
    match n.get_effective_smiles with
    | none => none
    | some v => if pyTruthy v then some (n, pyStr v) else none)

theorem pie_fst_const (nodes : List ChemicalNode) (an : ChemicalNode)
    (sm ts : String) (e : ChemicalEdge) (r r' : LinkGenResults) :
    (processIncidentEdge nodes an sm ts e r).1 =
      (processIncidentEdge nodes an sm ts e r').1 := by
  simp only [processIncidentEdge]
  cases hfind : nodes.find?
      (fun n => n.id == (if e.source == an.id then e.target else e.source)) with
  | none => rfl
  | some sec =>
    dsimp only
    cases hgen : generate_modifinder_link an sec sm (some e) with
    | none => rfl
    | some link => rfl

theorem pie_view (nodes : List ChemicalNode) (an : ChemicalNode) (sm ts : String)
    (e : ChemicalEdge) (r : LinkGenResults) :
    edgeView (processIncidentEdge nodes an sm ts e r).1 = edgeView e := by
  simp only [processIncidentEdge]
  cases hfind : nodes.find?
      (fun n => n.id == (if e.source == an.id then e.target else e.source)) with
  | none => rfl
  | some sec =>
    dsimp only
    cases hgen : generate_modifinder_link an sec sm (some e) with
    | none => rfl
    | some link =>
      show (e.source, e.target,
          lookupKey (setKey (setKey (setKey e.properties "modifinder_link" (.str link))
            "modifinder_generated" (.str ts)) "modifinder_source_node" (.str an.id))
            "adduct_1") =
        (e.source, e.target, lookupKey e.properties "adduct_1")
      rw [lookupKey_setKey_other _ _ _ _ (by decide),
        lookupKey_setKey_other _ _ _ _ (by decide),
        lookupKey_setKey_other _ _ _ _ (by decide)]

theorem pie_link (nodes : List ChemicalNode) (an : ChemicalNode) (sm ts : String)
    (e : ChemicalEdge) (r : LinkGenResults) :
    lookupKey (processIncidentEdge nodes an sm ts e r).1.properties "modifinder_link" =
      (match linkFor nodes an sm e with
       | some l => some (PropValue.str l)
       | none => lookupKey e.properties "modifinder_link") := by
  simp only [processIncidentEdge, linkFor]
  cases hfind : nodes.find?
      (fun n => n.id == (if e.source == an.id then e.target else e.source)) with
  | none => rfl
  | some sec =>
    dsimp only
    cases hgen : generate_modifinder_link an sec sm (some e) with
    | none => rfl
    | some link =>
      show lookupKey (setKey (setKey (setKey e.properties "modifinder_link" (.str link))
          "modifinder_generated" (.str ts)) "modifinder_source_node" (.str an.id))
          "modifinder_link" = some (PropValue.str link)
      rw [lookupKey_setKey_other _ _ _ _ (by decide),
        lookupKey_setKey_other _ _ _ _ (by decide), lookupKey_setKey_self]

theorem passEdge_view (nodes : List ChemicalNode) (an : ChemicalNode)
    (sm ts : String) (e : ChemicalEdge) :
    edgeView (passEdge nodes an sm ts e) = edgeView e := by
  unfold passEdge
  split
  · exact pie_view nodes an sm ts e {}
  · rfl

theorem runEdges_view (nodes : List ChemicalNode) (ts : String)
    (jobs : List (ChemicalNode × String)) :
    ∀ e, edgeView (runEdges nodes ts jobs e) = edgeView e := by
  induction jobs with
  | nil => intro e; rfl
  | cons j rest ih =>
    intro e
    obtain ⟨an, sm⟩ := j
    show edgeView (runEdges nodes ts rest (passEdge nodes an sm ts e)) = edgeView e
    rw [ih, passEdge_view]

theorem can_generate_link_congr (an sec : ChemicalNode) (sm : String)
    (e e' : ChemicalEdge) (hv : edgeView e = edgeView e') :
    can_generate_link an sec sm (some e) = can_generate_link an sec sm (some e') := by
  have hl : lookupKey e.properties "adduct_1" = lookupKey e'.properties "adduct_1" :=
    congrArg (fun v => v.2.2) hv
  have hh : hasKey e.properties "adduct_1" = hasKey e'.properties "adduct_1" := by
    rw [hasKey_eq_isSome, hasKey_eq_isSome, hl]
  unfold can_generate_link resolvedAdduct
  dsimp only
  rw [hl, hh]

theorem generate_link_congr (an sec : ChemicalNode) (sm : String)
    (e e' : ChemicalEdge) (hv : edgeView e = edgeView e') :
    generate_modifinder_link an sec sm (some e) =
      generate_modifinder_link an sec sm (some e') := by
  have hl : lookupKey e.properties "adduct_1" = lookupKey e'.properties "adduct_1" :=
    congrArg (fun v => v.2.2) hv
  have hh : hasKey e.properties "adduct_1" = hasKey e'.properties "adduct_1" := by
    rw [hasKey_eq_isSome, hasKey_eq_isSome, hl]
  unfold generate_modifinder_link resolvedAdduct
  dsimp only
  rw [can_generate_link_congr an sec sm e e' hv, hl, hh]

theorem linkFor_congr (nodes : List ChemicalNode) (an : ChemicalNode) (sm : String)
    (e e' : ChemicalEdge) (hv : edgeView e = edgeView e') :
    linkFor nodes an sm e = linkFor nodes an sm e' := by
  have hs : e.source = e'.source := congrArg (fun v => v.1) hv
  have ht : e.target = e'.target := congrArg (fun v => v.2.1) hv
  unfold linkFor
  rw [hs, ht]
  cases hfind : nodes.find?
      (fun n => n.id == (if e'.source == an.id then e'.target else e'.source)) with
  | none => rfl
  | some sec =>
    dsimp only
    exact generate_link_congr an sec sm e e' hv

theorem lastLink_congr (nodes : List ChemicalNode)
    (jobs : List (ChemicalNode × String)) :
    ∀ e e' : ChemicalEdge, edgeView e = edgeView e' →
      lastLink nodes jobs e = lastLink nodes jobs e' := by
  induction jobs with
  | nil => intro e e' _; rfl
  | cons j rest ih =>
    intro e e' hv
    obtain ⟨an, sm⟩ := j
    have hs : e.source = e'.source := congrArg (fun v => v.1) hv
    have ht : e.target = e'.target := congrArg (fun v => v.2.1) hv
    simp only [lastLink]
    rw [ih e e' hv, hs, ht, linkFor_congr nodes an sm e e' hv]

theorem runEdges_link (nodes : List ChemicalNode) (ts : String)
    (jobs : List (ChemicalNode × String)) :
    ∀ e, lookupKey (runEdges nodes ts jobs e).properties "modifinder_link" =
      (match lastLink nodes jobs e with
       | some l => some (PropValue.str l)
       | none => lookupKey e.properties "modifinder_link") := by
  induction jobs with
  | nil => intro e; rfl
  | cons j rest ih =>
    intro e
    obtain ⟨an, sm⟩ := j
    show lookupKey (runEdges nodes ts rest (passEdge nodes an sm ts e)).properties _ = _
    rw [ih (passEdge nodes an sm ts e),
      lastLink_congr nodes rest _ _ (passEdge_view nodes an sm ts e)]
    simp only [lastLink]
    cases hll : lastLink nodes rest e with
    | some l => rfl
    | none =>
      dsimp only
      by_cases hinc : (e.source == an.id || e.target == an.id) = true
      · rw [if_pos hinc]
        show lookupKey (passEdge nodes an sm ts e).properties "modifinder_link" = _
        unfold passEdge
        rw [if_pos hinc]
        exact pie_link nodes an sm ts e {}
      · rw [if_neg hinc]
        show lookupKey (passEdge nodes an sm ts e).properties "modifinder_link" = _
        unfold passEdge
        rw [if_neg hinc]

theorem genFold_edges (nodes : List ChemicalNode) (an : ChemicalNode)
    (sm ts : String) (es : List ChemicalEdge) :
    ∀ acc : List ChemicalEdge × LinkGenResults,
      (es.foldl (genStep nodes an sm ts) acc).1 =
        acc.1 ++ es.map (passEdge nodes an sm ts) := by
  induction es with
  | nil => intro acc; simp
  | cons e rest ih =>
    intro acc
    rw [List.foldl_cons, ih]
    by_cases h : (e.source == an.id || e.target == an.id) = true
    · show (genStep nodes an sm ts acc e).1 ++ _ = _
      unfold genStep
      rw [if_pos h]
      dsimp only
      rw [pie_fst_const nodes an sm ts e acc.2 {}]
      show (acc.1 ++ [(processIncidentEdge nodes an sm ts e {}).1]) ++ _ = _
      have hpass : passEdge nodes an sm ts e = (processIncidentEdge nodes an sm ts e {}).1 := by
        unfold passEdge
        rw [if_pos h]
      simp [hpass]
    · show (genStep nodes an sm ts acc e).1 ++ _ = _
      unfold genStep
      rw [if_neg h]
      have hpass : passEdge nodes an sm ts e = e := by
        unfold passEdge
        rw [if_neg h]
      simp [hpass]

theorem genLinks_edges (net : ChemicalNetwork) (an : ChemicalNode) (sm ts : String) :
    (_generate_modifinder_links_for_node net an sm ts).1.edges =
      net.edges.map (passEdge net.nodes an sm ts) := by
  show (net.edges.foldl (genStep net.nodes an sm ts)
    (([], {}) : List ChemicalEdge × LinkGenResults)).1 = _
  rw [genFold_edges]
  simp

theorem bulkFold (ts : String) (N : List ChemicalNode) (ns : List ChemicalNode) :
    ∀ acc : ChemicalNetwork × BulkResults, acc.1.nodes = N →
      ((ns.foldl (bulkStep ts) acc).1.nodes = N ∧
       (ns.foldl (bulkStep ts) acc).1.edges =
         acc.1.edges.map (runEdges N ts (jobsOf ns))) := by
  induction ns with
  | nil =>
    intro acc hacc
    refine ⟨hacc, ?_⟩
    show acc.1.edges = acc.1.edges.map (runEdges N ts (jobsOf []))
    calc acc.1.edges = acc.1.edges.map id := (List.map_id _).symm
    _ = acc.1.edges.map (runEdges N ts (jobsOf [])) :=
      List.map_congr_left (fun e _ => rfl)
  | cons n rest ih =>
    intro acc hacc
    rw [List.foldl_cons]
    cases hges : n.get_effective_smiles with
    | none =>
      have hstep : bulkStep ts acc n = acc := by
        unfold bulkStep
        rw [hges]
      have hjobs : jobsOf (n :: rest) = jobsOf rest := by
        unfold jobsOf
        rw [List.filterMap_cons]
        rw [show (match n.get_effective_smiles with
          | none => none
          | some v => if pyTruthy v then some (n, pyStr v) else none) = none from
          by rw [hges]]
      rw [hstep, hjobs]
      exact ih acc hacc
    | some v =>
      by_cases htr : pyTruthy v = true
      · have h1 : (bulkStep ts acc n).1.nodes = N := by
          unfold bulkStep
          rw [hges]
          dsimp only
          rw [if_neg (by simp [htr])]
          show (_generate_modifinder_links_for_node acc.1 n (pyStr v) ts).1.nodes = N
          rw [genLinks_nodes]
          exact hacc
        have h2 : (bulkStep ts acc n).1.edges =
            acc.1.edges.map (passEdge N n (pyStr v) ts) := by
          unfold bulkStep
          rw [hges]
          dsimp only
          rw [if_neg (by simp [htr])]
          show (_generate_modifinder_links_for_node acc.1 n (pyStr v) ts).1.edges = _
          rw [genLinks_edges, hacc]
        obtain ⟨ihn, ihe⟩ := ih (bulkStep ts acc n) h1
        refine ⟨ihn, ?_⟩
        rw [ihe, h2, List.map_map]
        have hjobs : jobsOf (n :: rest) = (n, pyStr v) :: jobsOf rest := by
          unfold jobsOf
          rw [List.filterMap_cons]
          rw [show (match n.get_effective_smiles with
            | none => none
            | some v => if pyTruthy v then some (n, pyStr v) else none) =
            some (n, pyStr v) from by rw [hges]; dsimp only; rw [if_pos htr]]
        rw [hjobs]
        exact List.map_congr_left (fun e _ => rfl)
      · have hstep : bulkStep ts acc n = acc := by
          unfold bulkStep
          rw [hges]
          dsimp only
          rw [if_pos (by simp [htr])]
        have hjobs : jobsOf (n :: rest) = jobsOf rest := by
          unfold jobsOf
          rw [List.filterMap_cons]
          rw [show (match n.get_effective_smiles with
            | none => none
            | some v => if pyTruthy v then some (n, pyStr v) else none) = none from
            by rw [hges]; dsimp only; rw [if_neg htr]]
        rw [hstep, hjobs]
        exact ih acc hacc

theorem bulk_net_characterization (net : ChemicalNetwork) (ts : String) :
    (generate_modifinder_links_for_existing_annotations net ts).1.nodes = net.nodes ∧
    (generate_modifinder_links_for_existing_annotations net ts).1.edges =
      net.edges.map (runEdges net.nodes ts
        (jobsOf (net.nodes.filter (fun n => n.has_smiles)))) := by
  simp only [generate_modifinder_links_for_existing_annotations]
  exact bulkFold ts net.nodes (net.nodes.filter (fun n => n.has_smiles))
    (net, { total_annotated_nodes := (net.nodes.filter (fun n => n.has_smiles)).length })
    rfl

/-- C2: re-running the bulk link derivation with no intervening annotation
changes leaves every edge's `modifinder_link` property byte-identical to its
value after the first run — each per-edge link is a deterministic function of
the (unchanged) node properties, edge `adduct_1`, structure and fixed
tolerance/threshold defaults, and regeneration overwrites it with the same
output (the timestamps `ts1`, `ts2` of the two runs are arbitrary). -/
theorem c2_bulk_rederivation_idempotent (net : ChemicalNetwork) (ts1 ts2 : String) :
    ((generate_modifinder_links_for_existing_annotations
        (generate_modifinder_links_for_existing_annotations net ts1).1 ts2).1.edges.map
      (fun e => lookupKey e.properties "modifinder_link")) =
    ((generate_modifinder_links_for_existing_annotations net ts1).1.edges.map
      (fun e => lookupKey e.properties "modifinder_link")) := by
  obtain ⟨hn1, he1⟩ := bulk_net_characterization net ts1
  obtain ⟨hn2, he2⟩ := bulk_net_characterization
    (generate_modifinder_links_for_existing_annotations net ts1).1 ts2
  rw [he2, hn1, he1, List.map_map, List.map_map, List.map_map]
  apply List.map_congr_left
  intro e hmem
  simp only [Function.comp_apply]
  rw [runEdges_link net.nodes ts2 _ (runEdges net.nodes ts1 _ e),
    lastLink_congr net.nodes _ _ e (runEdges_view net.nodes ts1 _ e)]
  cases hll : lastLink net.nodes
      (jobsOf (net.nodes.filter (fun n => n.has_smiles))) e with
  | some l =>
    rw [runEdges_link net.nodes ts1 _ e, hll]
  | none => rfl
